import Mathlib

/-!
Shallow embedding of the metric logger of `rlbench` (src/rlbench/logger.py and
src/rlbench/utils.py), together with proofs checking the natural-language
specification against it.

Modelling conventions:
* Python dicts are insertion-ordered association lists (`Dict α`); keys are
  unique in every state reachable from a real Python dict, which is recorded
  as `Nodup` hypotheses where the proofs need it.
* Numeric metric values are embedded as rationals (`Val := ℚ`): Python ints
  embed exactly, and the float arithmetic of `log_binned` (which is
  unreachable from any constructed logger, see `NVal`) is idealised as exact
  rational arithmetic.
* Python exceptions are `Except`.  Methods that mutate `self` before raising
  return `Except (Err × Logger) Logger`: the error case carries the state as
  mutated up to the raise, exactly as a Python object survives an exception.
* The spec's error taxonomy names the `ValueError`/`TypeError`/`RuntimeError`
  raise sites of the source; each raise site is embedded as the taxonomy
  constructor the spec assigns to it.
* `wandb` (the remote sink) is external I/O: `wandb.init`, `wandb_run.log`,
  `wandb_run.finish` are modelled as opaque successful calls with no local
  state change, as the spec treats the remote backend as an opaque sink.
* CPython iterates a `set` in an order that depends on string hashing; it is
  neither specified nor (with hash randomisation) reproducible.  Every
  construction is therefore parameterised by `setList`, the function
  `xs ↦ list(set(xs))`; `SetListOK` states exactly what Python guarantees of
  it (no duplicates, same membership).
-/

/-- Python dict with string keys: insertion-ordered association list. -/
abbrev Dict (α : Type) := List (String × α)

/-- The keys of a dict, in insertion order. -/
def Dict.keys {α : Type} (d : Dict α) : List String := d.map Prod.fst

/-- `d[k]` as an option: first entry with the given key. -/
def Dict.get? {α : Type} : Dict α → String → Option α
  | [], _ => none
  | p :: ps, k => if p.1 = k then some p.2 else Dict.get? ps k

/-- `d[k] = v`: overwrite the entry holding the key (unique in a real dict)
in place, append otherwise (Python dict assignment preserves the insertion
order of existing keys). -/
def Dict.set {α : Type} : Dict α → String → α → Dict α
  | [], k, v => [(k, v)]
  | p :: ps, k, v => if p.1 = k then (k, v) :: ps else p :: Dict.set ps k v

/-- `utils.copy_to_dict` (utils.py lines 21-27): `for key in from_dict:
to_dict[key] = from_dict[key]`, specialised to copying a numeric record into
a summary dict (whose values are `Option`, Python `None` being `none`). -/
def copyToDict (from_d : Dict ℚ) (to_d : Dict (Option ℚ)) : Dict (Option ℚ) :=
  from_d.foldl (fun acc p => Dict.set acc p.1 (some p.2)) to_d

/-- `set(a) == set(b)` on key lists: equal membership. -/
def sameKeySet (a b : List String) : Bool :=
  a.all (fun x => decide (x ∈ b)) && b.all (fun x => decide (x ∈ a))

/-- What Python guarantees of `xs ↦ list(set(xs))`: the result has no
duplicates and exactly the members of `xs`; the order is arbitrary. -/
def SetListOK (f : List String → List String) : Prop :=
  ∀ xs : List String, (f xs).Nodup ∧ ∀ a : String, a ∈ f xs ↔ a ∈ xs

/-- `list(set(ms).difference({step}))` (logger.py line 113), with the set
iteration order supplied by `setList`. -/
def pySetMinus (setList : List String → List String)
    (ms : List String) (step : String) : List String :=
  setList (ms.filter (fun m => decide (m ≠ step)))

/-- Metric values (see module docstring). -/
abbrev Val := ℚ

/-- A metric record: what the caller passes to `log`/`log_binned`. -/
abbrev Record := Dict Val

/-- `LogMode` (logger.py lines 592-595). -/
inductive LogMode where
  | DISABLED
  | WANDB
  | LOCAL
deriving DecidableEq, Repr, Inhabited

/-- The spec's error taxonomy (spec §7), naming the raise sites of the
source: `configurationError` for the constructor's `ValueError`/`TypeError`
raises, `unknownGroupError` for an unregistered group, `unregisteredKeyError`
for `log(check_keys=True)` (carrying the offending keys),
`validationError` for the remaining `ValueError` raises,
`alreadyFinishedError` for the `RuntimeError` in `finish`.  `typeError` and
`keyError` embed Python `TypeError`/`KeyError` raised by the runtime itself
rather than by an explicit `raise`. -/
inductive Err where
  | configurationError (msg : String)
  | unknownGroupError (group : String)
  | unregisteredKeyError (ks : List String)
  | validationError (msg : String)
  | alreadyFinishedError
  | notImplementedError (msg : String)
  | typeError (msg : String)
  | keyError (k : String)
deriving DecidableEq, Repr

/-- A value of `self._metric_n[group]`: initialised to a per-metric dict
(logger.py lines 196-197) but assigned the integer `0` on a bin flush
(line 451) — the two uses are inconsistent in the source, so the embedding
needs the union type. -/
inductive NVal where
  | dictV (d : Dict Int)
  | intV (n : Int)
deriving DecidableEq, Repr

/-- The decimal digit character of `n < 10`. -/
def digitChar (n : Nat) : Char := Char.ofNat (48 + n)

/-- Decimal digits, most significant first; `fuel` bounds the recursion depth
(structural recursion, so that proofs can evaluate it). -/
def natCharsAux : Nat → Nat → List Char
  | 0, _ => []
  | fuel + 1, n =>
    if n < 10 then [digitChar n]
    else natCharsAux fuel (n / 10) ++ [digitChar (n % 10)]

/-- Decimal digits of a natural number, most significant first. -/
def natChars (n : Nat) : List Char := natCharsAux (n + 1) n

/-- Python `str` of a non-negative integer. -/
def natStr (n : Nat) : String := String.mk (natChars n)

/-- Python `str` of an integer. -/
def intStr : Int → String
  | Int.ofNat m => natStr m
  | Int.negSucc m => "-" ++ natStr (m + 1)

/-- Python `str` of a logged value.  Exact for integers (the only values the
theorems evaluate); non-integer rationals — the idealisation of Python
floats — render as `num/den`. -/
def pyStr (q : Val) : String :=
  if q.den = 1 then intStr q.num else intStr q.num ++ "/" ++ natStr q.den

/-- Python `sep.join(parts)`. -/
def pyJoin (sep : String) : List String → String
  | [] => ""
  | [a] => a
  | a :: b :: rest => a ++ sep ++ pyJoin sep (b :: rest)

/-- The content of a file, as the concatenation of its `write` calls. -/
def contentOf : List String → String
  | [] => ""
  | c :: cs => c ++ contentOf cs

/-- Split a character list at every newline; a file with no final newline
yields exactly one chunk per line. -/
def splitLinesC : List Char → List (List Char)
  | [] => [[]]
  | c :: cs =>
    match splitLinesC cs with
    | [] => [[]]
    | r :: rs => if c = '\n' then [] :: r :: rs else (c :: r) :: rs

/-- The lines of a string (`"a\nb"` has the two lines `a` and `b`). -/
def linesOf (s : String) : List (List Char) := splitLinesC s.data

/-- The string contains no newline character. -/
def noNL (s : String) : Prop := '\n' ∉ s.data

instance (s : String) : Decidable (noNL s) :=
  inferInstanceAs (Decidable ('\n' ∉ s.data))

/-- The `Logger` state (logger.py class `Logger`), restricted to the fields
the enabled modes read or write.  File-backed artifacts are carried in the
state: `metrics_files` maps each group to the list of chunks written to
`metrics/<group>.csv`, `status_file` and `summary_file` model `status.txt`
and `summary.json`, `files_dir` the basenames copied into `files/`.
`is_enabled` is derived (`log_mode != DISABLED`, line 73). -/
structure Logger where
  log_mode : LogMode
  metric_groups : List String
  step_metrics : Dict String
  metrics : Dict (List String)
  summary : Option (Dict (Dict (Option Val)))
  bin_size : Option (Dict Int)
  metric_roll_avg : Option (Dict (Dict Val))
  metric_n : Option (Dict NVal)
  metrics_files : Option (Dict (List String))
  files_closed : Bool
  status_file : Option String
  summary_file : Option (Dict (Dict (Option Val)))
  files_dir : List String
  is_finished : Bool
deriving DecidableEq, Repr, Inhabited

/-- `self._is_enabled` (line 73). -/
def Logger.is_enabled (lg : Logger) : Bool := lg.log_mode != LogMode.DISABLED

/-- `self._step_metrics[group]`; only evaluated for registered groups. -/
def stepOf (lg : Logger) (g : String) : String :=
  (Dict.get? lg.step_metrics g).getD ""

/-- `self._metrics[group]`; only evaluated for registered groups. -/
def metricsOf (lg : Logger) (g : String) : List String :=
  (Dict.get? lg.metrics g).getD []

/-- The chunks written to `metrics/<g>.csv`. -/
def fileChunks (lg : Logger) (g : String) : List String :=
  ((lg.metrics_files.bind (fun f => Dict.get? f g)).getD [])

/-- The header row of a group's CSV file (logger.py line 283):
`f"{step}," + ",".join(metrics)`. -/
def headerOf (lg : Logger) (g : String) : String :=
  stepOf lg g ++ "," ++ pyJoin "," (metricsOf lg g)

/-- `parseLogMode` embeds logger.py lines 63-71; the `ValueError` for an
invalid selector is the spec's `ConfigurationError`. -/
def parseLogMode (s : String) : Except Err LogMode :=
  if s = "disabled" then Except.ok LogMode.DISABLED
  else if s = "wandb" then Except.ok LogMode.WANDB
  else if s = "local" then Except.ok LogMode.LOCAL
  else Except.error (Err.configurationError ("Invalid value for log_mode=" ++ s))

/-- The `bin_size` constructor argument: `None`, an int, a dict, or a value
of any other type (logger.py accepts `Union[int, Dict[str, int]]` but checks
the runtime type). -/
inductive BinArg where
  | noneArg
  | int (b : Int)
  | dict (d : Dict Int)
  | other
deriving DecidableEq, Repr

/-- Resolution of `bin_size` against the group names (logger.py lines
138-147).  The `ValueError` for mismatched keys and the `TypeError` for a
wrong type are both the spec's `ConfigurationError`. -/
def binResolve : BinArg → List String → Except Err (Option (Dict Int))
  | BinArg.noneArg, _ => Except.ok none
  | BinArg.int b, groups => Except.ok (some (groups.map (fun g => (g, b))))
  | BinArg.dict bd, groups =>
    if sameKeySet (Dict.keys bd) groups then Except.ok (some bd)
    else Except.error (Err.configurationError "Keys of bin_size must be same as keys of metrics")
  | BinArg.other, _ => Except.error (Err.configurationError "Wrong type for bin_size")

/-- The per-group loop of `_setup_local` (logger.py lines 272-284): for each
group open `metrics/<group>.csv` (truncating: the empty chunk list), raise
`ValueError` — the spec's `ConfigurationError` — if the group's metric list
is empty, else write the header row. -/
def setupFilesLoop (lg : Logger) : List String → Dict (List String) →
    Except Err (Dict (List String))
  | [], acc => Except.ok acc
  | g :: gs, acc =>
    let acc1 := Dict.set acc g []
    if (metricsOf lg g).length = 0 then
      Except.error (Err.configurationError ("self._metrics[" ++ g ++ "] is empty"))
    else setupFilesLoop lg gs (Dict.set acc1 g [headerOf lg g])

/-- `Logger._setup_local` (logger.py lines 214-292).  Directory creation and
`config.json`/`metadata.json` are filesystem scaffolding no claim observes;
the metric files and `status.txt` are carried in the state. -/
def Logger.setup_local (lg : Logger) (reinit : Bool) : Except Err Logger :=
  if !reinit then Except.error (Err.notImplementedError "reinit=False not currently implemented")
  else
    match setupFilesLoop lg lg.metric_groups [] with
    | Except.error e => Except.error e
    | Except.ok files =>
      Except.ok { lg with metrics_files := some files, status_file := some "started" }

/-- `Logger._setup_wandb` (logger.py lines 295-331).  `wandb.init` is opaque
external I/O, modelled as a successful session.  The `define_metric` loop
iterates `for name, step_metric in metrics_arr` over a list of *strings*:
Python unpacks each string and raises `ValueError` unless it has length 2. -/
def Logger.setup_wandb (lg : Logger) (_reinit : Bool) : Except Err Logger :=
  if lg.metrics.all (fun p => p.2.all (fun m => m.length == 2)) then Except.ok lg
  else Except.error (Err.validationError "cannot unpack metric name into (name, step_metric)")

/-- `Logger._setup` (logger.py lines 190-207): initialise the bin
accumulators when a bin size is configured — note `self._metric_n[group]`
becomes a per-metric dict — then dispatch on the mode. -/
def Logger.setup (lg : Logger) (reinit : Bool) : Except Err Logger :=
  if lg.is_enabled then
    let lg1 :=
      if lg.bin_size.isSome then
        { lg with
          metric_roll_avg := some (lg.metric_groups.map
            (fun g => (g, (metricsOf lg g).map (fun m => (m, (0 : Val)))))),
          metric_n := some (lg.metric_groups.map
            (fun g => (g, NVal.dictV ((metricsOf lg g).map (fun m => (m, (0 : Int))))))) }
      else lg
    if lg1.log_mode = LogMode.LOCAL then Logger.setup_local lg1 reinit
    else if lg1.log_mode = LogMode.WANDB then Logger.setup_wandb lg1 reinit
    else Except.ok lg1
  else Except.ok lg

/-- `Logger.__init__` (logger.py lines 18-185), parameterised by the set
iteration order `setList` (see `SetListOK`).  Constructor arguments no claim
observes (name, job type, tags, config blob, directories, sub-logger flags)
are omitted; `wandb_mode` is kept because its validation (lines 129-131)
precedes the `bin_size` validation. -/
def Logger.init (setList : List String → List String) (log_mode : String)
    (metrics : Dict (String × List String)) (bin_size : BinArg)
    (wandb_mode : String) (reinit : Bool) : Except Err Logger :=
  match parseLogMode log_mode with
  | Except.error e => Except.error e
  | Except.ok mode =>
    let enabled := mode != LogMode.DISABLED
    let metric_groups := Dict.keys metrics
    let step_metrics : Dict String := metrics.map (fun p => (p.1, p.2.1))
    let metricsD : Dict (List String) :=
      metrics.map (fun p => (p.1, pySetMinus setList p.2.2 p.2.1))
    let summary : Option (Dict (Dict (Option Val))) :=
      if enabled && (mode == LogMode.LOCAL) then
        some (metrics.map (fun p =>
          (p.1, (pySetMinus setList p.2.2 p.2.1).map (fun m => (m, (none : Option Val)))
                ++ [(p.2.1, none)])))
      else none
    if wandb_mode ∉ (["online", "local", "disabled"] : List String) then
      Except.error (Err.configurationError ("Invalid value for wandb_mode=" ++ wandb_mode))
    else
      match binResolve bin_size metric_groups with
      | Except.error e => Except.error e
      | Except.ok bin =>
        let lg0 : Logger :=
          { log_mode := mode, metric_groups := metric_groups,
            step_metrics := step_metrics, metrics := metricsD,
            summary := summary, bin_size := bin,
            metric_roll_avg := none, metric_n := none,
            metrics_files := none, files_closed := false,
            status_file := none, summary_file := none,
            files_dir := [], is_finished := false }
        if lg0.is_enabled then Logger.setup lg0 reinit else Except.ok lg0

/-- `Logger._to_row` (logger.py lines 489-510).  The step metric must be in
the record (`ValueError`, the spec's `ValidationError`); the `check_keys`
branch reproduces the source's inverted condition (it raises when the key
difference is *empty*) — dead code, since every caller passes
`check_keys=False`.  Missing metrics render as the empty string via the
`defaultdict`. -/
def Logger.to_row (lg : Logger) (d : Record) (group : String)
    (check_keys : Bool) : Except Err String :=
  let group_metrics := metricsOf lg group
  let step_metric := stepOf lg group
  if step_metric ∉ Dict.keys d then
    Except.error (Err.validationError ("step_metric=" ++ step_metric ++ " not specified in d"))
  else if check_keys &&
      ((Dict.keys d).filter (fun k => decide (k ∉ group_metrics))).isEmpty then
    Except.error (Err.unregisteredKeyError [])
  else
    let arr := group_metrics.map (fun col =>
      match Dict.get? d col with
      | some v => pyStr v
      | none => "")
    Except.ok (pyStr ((Dict.get? d step_metric).getD 0) ++ "," ++ pyJoin "," arr)

/-- `Logger._log_local` (logger.py lines 512-523).  The record is merged into
the group's summary (`copy_to_dict`) *before* the row is built, so a raise in
`_to_row` leaves the summary already updated; the row is then appended to the
group's file preceded by a newline.  Accessing `self._summary[group]` on a
`None` summary or a missing group, or writing to a closed file, raises the
corresponding runtime error. -/
def Logger.log_local (lg : Logger) (d : Record) (group : String)
    (check_keys : Bool) : Except (Err × Logger) Logger :=
  if group ∉ Dict.keys lg.metrics then
    Except.error (Err.unknownGroupError group, lg)
  else
    match lg.summary with
    | none => Except.error (Err.typeError "NoneType object is not subscriptable", lg)
    | some s =>
      match Dict.get? s group with
      | none => Except.error (Err.keyError group, lg)
      | some gs =>
        let lg1 := { lg with summary := some (Dict.set s group (copyToDict d gs)) }
        match Logger.to_row lg1 d group check_keys with
        | Except.error e => Except.error (e, lg1)
        | Except.ok row =>
          match lg1.metrics_files with
          | none => Except.error (Err.typeError "NoneType object is not subscriptable", lg1)
          | some files =>
            match Dict.get? files group with
            | none => Except.error (Err.keyError group, lg1)
            | some chunks =>
              if lg1.files_closed then
                Except.error (Err.validationError "I/O operation on closed file", lg1)
              else
                Except.ok { lg1 with
                  metrics_files := some (Dict.set files group (chunks ++ ["\n" ++ row])) }

/-- `Logger.log` (logger.py lines 396-422): no-op when disabled; unknown
group raises `ValueError` — the spec's `UnknownGroupError`; with
`check_keys=True` the record keys outside the step metric and the group's
registered metrics raise `ValueError` listing them — the spec's
`UnregisteredKeyError` (the offending keys are a Python set; here listed in
record order); then dispatch, with `check_keys=False` passed to
`_log_local`.  The remote branch forwards to the opaque sink. -/
def Logger.log (lg : Logger) (d : Record) (group : String)
    (check_keys : Bool) : Except (Err × Logger) Logger :=
  if !lg.is_enabled then Except.ok lg
  else if group ∉ Dict.keys lg.metrics then
    Except.error (Err.unknownGroupError group, lg)
  else
    let offending := (Dict.keys d).filter
      (fun k => decide (k ≠ stepOf lg group ∧ k ∉ metricsOf lg group))
    if check_keys && !offending.isEmpty then
      Except.error (Err.unregisteredKeyError offending, lg)
    else if lg.log_mode = LogMode.LOCAL then Logger.log_local lg d group false
    else if lg.log_mode = LogMode.WANDB then Except.ok lg
    else Except.error (Err.validationError "unreachable mode", lg)

/-- The averaging loop of `log_binned` (logger.py lines 442-447), updating
`self._metric_roll_avg[group]` entry by entry.  Dead code from any
constructed logger: `log_binned` raises before reaching it (see
`Logger.log_binned`).  Python float division is idealised as exact rational
division. -/
def binLoop (group : String) (n : Int) :
    List (String × Val) → Dict (Dict Val) → Except Err (Dict (Dict Val))
  | [], ra => Except.ok ra
  | (metric, val) :: rest, ra =>
    match Dict.get? ra group with
    | none => Except.error (Err.keyError group)
    | some gra =>
      match Dict.get? gra metric with
      | none => Except.error (Err.keyError metric)
      | some curr_avg =>
        let new_avg := curr_avg * ((n : Val) - 1) / (n : Val) + val / (n : Val)
        binLoop group n rest (Dict.set ra group (Dict.set gra metric new_avg))

/-- `Logger.log_binned` (logger.py lines 424-452): no-op when disabled;
requires a configured bin size (`ValueError`, the spec's
`ConfigurationError`), a registered group, and the record's key set to equal
the group's metric set (`ValueError`, the spec's `ValidationError`).  Then
`n = self._metric_n[group] + 1`: on every state reachable from construction
`self._metric_n[group]` is the per-metric dict built by `_setup`, and Python
raises `TypeError` for `dict + int`.  The remainder (averaging, flush that
resets the counter but not the averages, never storing `n` back otherwise)
is embedded for completeness. -/
def Logger.log_binned (lg : Logger) (d : Record) (group : String) :
    Except (Err × Logger) Logger :=
  if !lg.is_enabled then Except.ok lg
  else if lg.bin_size.isNone then
    Except.error (Err.configurationError
      "self._bin_size cannot be equal to None when calling log_binned", lg)
  else if group ∉ Dict.keys lg.metrics then
    Except.error (Err.unknownGroupError group, lg)
  else if !sameKeySet (Dict.keys d) (metricsOf lg group) then
    Except.error (Err.validationError "All metrics in group must be given when binning", lg)
  else
    let group_bin_size := ((lg.bin_size.bind (fun b => Dict.get? b group)).getD 0 : Int)
    match lg.metric_n with
    | none => Except.error (Err.typeError "NoneType object is not subscriptable", lg)
    | some mn =>
      match Dict.get? mn group with
      | none => Except.error (Err.keyError group, lg)
      | some (NVal.dictV _) =>
        Except.error (Err.typeError "unsupported operand type(s) for +: dict and int", lg)
      | some (NVal.intV m) =>
        let n := m + 1
        match binLoop group n d ((lg.metric_roll_avg).getD []) with
        | Except.error e => Except.error (e, lg)
        | Except.ok ra1 =>
          let lgA := { lg with metric_roll_avg := some ra1 }
          if n = group_bin_size then
            let avg_d : Record := (Dict.get? ra1 group).getD []
            let lgB := { lgA with metric_n := some (Dict.set mn group (NVal.intV 0)) }
            Logger.log lgB avg_d group false
          else Except.ok lgA

/-- `Logger.log_summary` (logger.py lines 480-484): local mode only; raises
`ValueError` — the spec's `ValidationError` — when the summary was never set,
else saves the summary snapshot to `summary.json`. -/
def Logger.log_summary (lg : Logger) : Except (Err × Logger) Logger :=
  if lg.is_enabled && (lg.log_mode == LogMode.LOCAL) then
    match lg.summary with
    | none => Except.error (Err.validationError "summary has not been set", lg)
    | some s => Except.ok { lg with summary_file := some s }
  else Except.ok lg

/-- `os.path.basename`. -/
def basename (p : String) : String := ((p.splitOn "/").getLast?).getD p

/-- `Logger.log_file` (logger.py lines 461-469 with 525-534, 551-560): local
mode copies the file into `files/` keeping its basename, skipping with a
warning when the basename already exists; the remote branch stages the copy
(overwriting) and uploads to the opaque sink. -/
def Logger.log_file (lg : Logger) (file_path : String) : Except (Err × Logger) Logger :=
  if lg.is_enabled then
    if lg.log_mode = LogMode.LOCAL then
      let file_name := basename file_path
      if file_name ∈ lg.files_dir then Except.ok lg
      else Except.ok { lg with files_dir := lg.files_dir ++ [file_name] }
    else if lg.log_mode = LogMode.WANDB then
      let file_name := basename file_path
      if file_name ∈ lg.files_dir then Except.ok lg
      else Except.ok { lg with files_dir := lg.files_dir ++ [file_name] }
    else Except.ok lg
  else Except.ok lg

/-- `Logger.finish` (logger.py lines 570-589): no-op when disabled; raises
`RuntimeError` — the spec's `AlreadyFinishedError` — when `self._is_finished`
is set; local mode closes the metric files, saves the summary and overwrites
`status.txt` with `"finished"`.  NOTE: the source never assigns
`self._is_finished = True`, and the embedding reproduces that. -/
def Logger.finish (lg : Logger) : Except (Err × Logger) Logger :=
  if lg.is_enabled then
    if lg.is_finished then Except.error (Err.alreadyFinishedError, lg)
    else if lg.log_mode = LogMode.LOCAL then
      let lg1 := { lg with files_closed := true }
      match Logger.log_summary lg1 with
      | Except.error e => Except.error e
      | Except.ok lg2 => Except.ok { lg2 with status_file := some "finished" }
    else Except.ok lg
  else Except.ok lg

/-- A sequence of `log(d, g)` calls (default `check_keys=False`), stopping at
the first raise. -/
def logAll (g : String) : Logger → List Record → Except (Err × Logger) Logger
  | lg, [] => Except.ok lg
  | lg, d :: ds =>
    match Logger.log lg d g false with
    | Except.error e => Except.error e
    | Except.ok lg1 => logAll g lg1 ds

/-- `finish(); finish()` on the same logger: the second call runs only when
the first succeeded. -/
def finishTwice (lg : Logger) : Except (Err × Logger) Logger :=
  match Logger.finish lg with
  | Except.error e => Except.error e
  | Except.ok lg1 => Logger.finish lg1

/-- Whether an `Except` is a success. -/
def exOk {ε α : Type} : Except ε α → Bool
  | Except.ok _ => true
  | Except.error _ => false

/-- Keep-first-occurrence deduplication, carrying the keys already seen
(structural recursion, so that proofs can evaluate it). -/
def insertionDedupAux : List String → List String → List String
  | [], _ => []
  | x :: xs, seen =>
    if x ∈ seen then insertionDedupAux xs seen
    else x :: insertionDedupAux xs (x :: seen)

/-- Keep-first-occurrence deduplication: the insertion order of a list with
duplicates removed. -/
def insertionDedup (xs : List String) : List String := insertionDedupAux xs []

/-- Modelled from the spec: the metric-name column order the spec asserts —
"insertion order of the caller-supplied metric list (after removing
duplicates and the step-metric name)" — to be compared with the order the
source produces. -/
def specColumnOrder (step : String) (ms : List String) : List String :=
  insertionDedup (ms.filter (fun m => decide (m ≠ step)))

/-- The row `_to_row` builds on success (logger.py lines 507-510): the step
value, then each registered column's value in the group's column order,
missing columns as the empty string. -/
def rowStrOf (step : String) (cols : List String) (d : Record) : String :=
  pyStr ((Dict.get? d step).getD 0) ++ "," ++
    pyJoin "," (cols.map (fun col =>
      match Dict.get? d col with
      | some v => pyStr v
      | none => ""))

/-- `list(set(xs))` realised with the keep-first order: one admissible set
iteration order, used to instantiate witnesses. -/
def fwdSetList : List String → List String := insertionDedup

/-- `list(set(xs))` realised with the keep-first order reversed: another
admissible set iteration order, used for the column-order counterexample. -/
def revSetList : List String → List String := fun xs => (insertionDedup xs).reverse

/-- Concrete local logger with bin size 3 for the `log_binned` evaluation. -/
def lgC1 : Logger :=
  (Logger.init fwdSetList "local" [("train", ("step", ["m1"]))]
    (BinArg.int 3) "online" true).toOption.getD default

/-- Concrete local logger for the double-`finish` evaluation. -/
def lgC2 : Logger :=
  (Logger.init fwdSetList "local" [("train", ("step", ["m1"]))]
    BinArg.noneArg "online" true).toOption.getD default

/-- Concrete local logger for the CSV round-trip witness. -/
def lgC3 : Logger :=
  (Logger.init fwdSetList "local" [("train", ("step", ["m1", "m2"]))]
    BinArg.noneArg "online" true).toOption.getD default

/-- Two records logged in the CSV round-trip witness. -/
def recsC3 : List Record := [[("step", 1), ("m1", 10)], [("step", 2), ("m2", 3)]]

/-- Concrete local logger for the key-checking witness. -/
def lgC4 : Logger :=
  (Logger.init fwdSetList "local" [("train", ("step", ["m1", "m2"]))]
    BinArg.noneArg "online" true).toOption.getD default

/-- Concrete local logger for the unknown-group witness. -/
def lgC5 : Logger :=
  (Logger.init fwdSetList "local" [("train", ("step", ["m1"]))]
    BinArg.noneArg "online" true).toOption.getD default

/-- Concrete local logger built with the reversed set order: the
column-order counterexample. -/
def lgC7 : Logger :=
  (Logger.init revSetList "local" [("g", ("step", ["m1", "m2"]))]
    BinArg.noneArg "online" true).toOption.getD default

/-- Concrete local logger for the amended column-order witness. -/
def lgC7w : Logger :=
  (Logger.init fwdSetList "local" [("g", ("step", ["m1", "m2"]))]
    BinArg.noneArg "online" true).toOption.getD default

/-- Concrete disabled-mode logger for the no-op witness. -/
def lgC8 : Logger :=
  (Logger.init fwdSetList "disabled" [("train", ("step", ["m1"]))]
    (BinArg.int 3) "online" true).toOption.getD default

/-- Concrete local logger for the missing-step-metric witness. -/
def lgC10 : Logger :=
  (Logger.init fwdSetList "local" [("train", ("step", ["m1", "m2"]))]
    BinArg.noneArg "online" true).toOption.getD default

deriving instance DecidableEq for Except

/-- The state of `lgC3` after logging the two records of `recsC3`. -/
def lgC3done : Logger := (logAll "train" lgC3 recsC3).toOption.getD default

/-! ## Dictionary lemmas -/

theorem Dict.get?_set_self {α : Type} (d : Dict α) (k : String) (v : α) :
    Dict.get? (Dict.set d k v) k = some v := by
  induction d with
  | nil => simp [Dict.set, Dict.get?]
  | cons p ps ih =>
    by_cases h : p.1 = k
    · simp [Dict.set, Dict.get?, h]
    · simp [Dict.set, Dict.get?, h, ih]

theorem Dict.get?_set_ne {α : Type} (d : Dict α) (k k' : String) (v : α)
    (h : k' ≠ k) : Dict.get? (Dict.set d k v) k' = Dict.get? d k' := by
  induction d with
  | nil => simp [Dict.set, Dict.get?, Ne.symm h]
  | cons p ps ih =>
    by_cases hp : p.1 = k
    · subst hp
      simp [Dict.set, Dict.get?, Ne.symm h]
    · by_cases hp' : p.1 = k'
      · simp [Dict.set, Dict.get?, hp, hp', h]
      · simp [Dict.set, Dict.get?, hp, hp', ih]

theorem Dict.set_set {α : Type} (d : Dict α) (k : String) (v w : α) :
    Dict.set (Dict.set d k v) k w = Dict.set d k w := by
  induction d with
  | nil => simp [Dict.set]
  | cons p ps ih =>
    by_cases h : p.1 = k
    · simp [Dict.set, h]
    · simp [Dict.set, h, ih]

theorem Dict.set_of_not_mem {α : Type} (d : Dict α) (k : String) (v : α)
    (h : k ∉ Dict.keys d) : Dict.set d k v = d ++ [(k, v)] := by
  induction d with
  | nil => simp [Dict.set]
  | cons p ps ih =>
    simp only [Dict.keys, List.map_cons, List.mem_cons] at h
    push_neg at h
    simp [Dict.set, Ne.symm h.1, ih h.2]

theorem Dict.get?_eq_none_of_not_mem {α : Type} (d : Dict α) (k : String)
    (h : k ∉ Dict.keys d) : Dict.get? d k = none := by
  induction d with
  | nil => rfl
  | cons p ps ih =>
    simp only [Dict.keys, List.map_cons, List.mem_cons] at h
    push_neg at h
    simp [Dict.get?, Ne.symm h.1, ih h.2]

theorem Dict.get?_map_self {α : Type} (f : String → α) (gs : List String)
    (g : String) (hg : g ∈ gs) :
    Dict.get? (gs.map (fun x => (x, f x))) g = some (f g) := by
  induction gs with
  | nil => cases hg
  | cons x xs ih =>
    by_cases h : x = g
    · simp [Dict.get?, h]
    · have hg' : g ∈ xs := by
        rcases List.mem_cons.mp hg with e | hh
        · exact absurd e.symm h
        · exact hh
      simp [Dict.get?, h, ih hg']

theorem Dict.get?_map_entry {α β : Type} (F : String × β → α)
    (l : List (String × β)) (p : String × β)
    (hnd : (l.map Prod.fst).Nodup) (hp : p ∈ l) :
    Dict.get? (l.map (fun q => (q.1, F q))) p.1 = some (F p) := by
  induction l with
  | nil => cases hp
  | cons q qs ih =>
    simp only [List.map_cons, List.nodup_cons] at hnd
    rcases List.mem_cons.mp hp with he | hp'
    · subst he; simp [Dict.get?]
    · have hne : q.1 ≠ p.1 := by
        intro e
        exact hnd.1 (e ▸ List.mem_map_of_mem Prod.fst hp')
      simp [Dict.get?, hne, ih hnd.2 hp']

theorem Dict.get?_foldl_set_ne {α β : Type} (f : String × β → α)
    (ds : List (String × β)) (acc : Dict α) (k : String)
    (h : ∀ p ∈ ds, p.1 ≠ k) :
    Dict.get? (ds.foldl (fun a p => Dict.set a p.1 (f p)) acc) k
      = Dict.get? acc k := by
  induction ds generalizing acc with
  | nil => rfl
  | cons p ps ih =>
    rw [List.foldl_cons, ih _ (fun q hq => h q (List.mem_cons_of_mem _ hq))]
    exact Dict.get?_set_ne _ _ _ _ (Ne.symm (h p (List.mem_cons_self p ps)))

theorem copyToDict_get? (d : Record) (t : Dict (Option Val)) (k : String) (v : Val)
    (hnd : (Dict.keys d).Nodup) (hkv : (k, v) ∈ d) :
    Dict.get? (copyToDict d t) k = some (some v) := by
  induction d generalizing t with
  | nil => cases hkv
  | cons p ps ih =>
    simp only [Dict.keys, List.map_cons, List.nodup_cons] at hnd
    rw [copyToDict, List.foldl_cons]
    rcases List.mem_cons.mp hkv with he | hkv'
    · have hk : p.1 = k := by rw [← he]
      have hv : p.2 = v := by rw [← he]
      have hne : ∀ q ∈ ps, q.1 ≠ k := by
        intro q hq e
        have hm : q.1 ∈ List.map Prod.fst ps := List.mem_map_of_mem Prod.fst hq
        rw [e, ← hk] at hm
        exact hnd.1 hm
      rw [Dict.get?_foldl_set_ne (fun q => some q.2) ps _ k hne, hk, hv]
      exact Dict.get?_set_self t k (some v)
    · exact ih _ hnd.2 hkv'

theorem Dict.get?_filter (P : String × Val → Bool) (d : Record) (k : String)
    (h : ∀ p ∈ d, p.1 = k → P p = true) :
    Dict.get? (d.filter P) k = Dict.get? d k := by
  induction d with
  | nil => rfl
  | cons p ps ih =>
    by_cases hk : p.1 = k
    · rw [List.filter_cons, if_pos (h p (List.mem_cons_self p ps) hk)]
      simp [Dict.get?, hk]
    · have ihh := ih (fun q hq => h q (List.mem_cons_of_mem _ hq))
      rw [List.filter_cons]
      by_cases hP : P p = true
      · simp [hP, Dict.get?, hk, ihh]
      · simp only [Bool.not_eq_true] at hP
        simp [hP, Dict.get?, hk, ihh]

theorem sameKeySet_iff (a b : List String) :
    sameKeySet a b = true ↔ ∀ x, x ∈ a ↔ x ∈ b := by
  constructor
  · intro h x
    simp only [sameKeySet, Bool.and_eq_true, List.all_eq_true, decide_eq_true_eq] at h
    exact ⟨fun hx => h.1 x hx, fun hx => h.2 x hx⟩
  · intro h
    simp only [sameKeySet, Bool.and_eq_true, List.all_eq_true, decide_eq_true_eq]
    exact ⟨fun x hx => (h x).mp hx, fun x hx => (h x).mpr hx⟩

/-! ## String rendering lemmas -/

theorem natCharsAux_digit (fuel : Nat) :
    ∀ (n : Nat), ∀ c ∈ natCharsAux fuel n, ∃ k, k < 10 ∧ c = digitChar k := by
  induction fuel with
  | zero => intro n c hc; cases hc
  | succ fuel ih =>
    intro n c hc
    rw [natCharsAux] at hc
    by_cases h : n < 10
    · rw [if_pos h] at hc
      rcases List.mem_singleton.mp hc with e
      exact ⟨n, h, e⟩
    · rw [if_neg h] at hc
      rcases List.mem_append.mp hc with hc | hc
      · exact ih (n / 10) c hc
      · rcases List.mem_singleton.mp hc with e
        exact ⟨n % 10, Nat.mod_lt n (by omega), e⟩

theorem natChars_digit (n : Nat) :
    ∀ c ∈ natChars n, ∃ k, k < 10 ∧ c = digitChar k :=
  natCharsAux_digit (n + 1) n

theorem digitChar_ne_newline : ∀ k, k < 10 → digitChar k ≠ '\n' := by decide

theorem noNL_natStr (n : Nat) : noNL (natStr n) := by
  intro hc
  rcases natChars_digit n '\n' hc with ⟨k, hk, e⟩
  exact digitChar_ne_newline k hk e.symm

theorem noNL_append (a b : String) (ha : noNL a) (hb : noNL b) :
    noNL (a ++ b) := by
  intro hc
  rw [String.data_append] at hc
  rcases List.mem_append.mp hc with hc | hc
  · exact ha hc
  · exact hb hc

theorem noNL_intStr (i : Int) : noNL (intStr i) := by
  cases i with
  | ofNat m => exact noNL_natStr m
  | negSucc m =>
    exact noNL_append _ _ (by intro hc; simpa using hc) (noNL_natStr (m + 1))

theorem noNL_pyStr (q : Val) : noNL (pyStr q) := by
  rw [pyStr]
  by_cases h : q.den = 1
  · rw [if_pos h]; exact noNL_intStr q.num
  · rw [if_neg h]
    exact noNL_append _ _
      (noNL_append _ _ (noNL_intStr q.num) (by intro hc; simpa using hc))
      (noNL_natStr q.den)

theorem noNL_pyJoin (sep : String) (l : List String)
    (hsep : noNL sep) (h : ∀ x ∈ l, noNL x) : noNL (pyJoin sep l) := by
  induction l with
  | nil => intro hc; simpa [pyJoin] using hc
  | cons a t ih =>
    cases t with
    | nil => exact h a (List.mem_cons_self a [])
    | cons b r =>
      rw [pyJoin]
      exact noNL_append _ _
        (noNL_append _ _ (h a (List.mem_cons_self _ _)) hsep)
        (ih (fun x hx => h x (List.mem_cons_of_mem _ hx)))

theorem noNL_rowStrOf (st : String) (cols : List String) (d : Record) :
    noNL (rowStrOf st cols d) := by
  rw [rowStrOf]
  apply noNL_append
  · exact noNL_append _ _ (noNL_pyStr _) (by intro hc; simpa using hc)
  · apply noNL_pyJoin _ _ (by intro hc; simpa using hc)
    intro x hx
    rcases List.mem_map.mp hx with ⟨col, _, e⟩
    cases hcol : Dict.get? d col with
    | some v => rw [hcol] at e; rw [← e]; exact noNL_pyStr v
    | none => rw [hcol] at e; rw [← e]; intro hc; simpa using hc

/-! ## Line-splitting lemmas -/

theorem contentOf_data (cs : List String) :
    (contentOf cs).data = (cs.map String.data).flatten := by
  induction cs with
  | nil => rfl
  | cons c t ih => simp [contentOf, String.data_append, ih]

theorem splitLinesC_append (a : List Char) (h : '\n' ∉ a) (cs : List Char)
    (r : List Char) (rs : List (List Char)) (hcs : splitLinesC cs = r :: rs) :
    splitLinesC (a ++ cs) = (a ++ r) :: rs := by
  induction a with
  | nil => simpa using hcs
  | cons x a ih =>
    have hx : ¬x = '\n' := fun e => h (e ▸ List.mem_cons_self x a)
    have ha := ih (fun hm => h (List.mem_cons_of_mem _ hm))
    rw [List.cons_append, splitLinesC, ha]
    simp [hx]

theorem splitLinesC_noNL (a : List Char) (h : '\n' ∉ a) :
    splitLinesC a = [a] := by
  have := splitLinesC_append a h [] [] [] rfl
  simpa using this

theorem splitLinesC_flatten (rows : List String) (h : ∀ r ∈ rows, noNL r) :
    splitLinesC ((rows.map (fun r => '\n' :: r.data)).flatten)
      = [] :: rows.map String.data := by
  induction rows with
  | nil => rfl
  | cons r rs ih =>
    have hr : '\n' ∉ r.data := h r (List.mem_cons_self r rs)
    have ihh := ih (fun x hx => h x (List.mem_cons_of_mem _ hx))
    have happ := splitLinesC_append r.data hr _ _ _ ihh
    simp only [List.map_cons, List.flatten_cons, List.cons_append]
    rw [splitLinesC, happ]
    simp

theorem linesOf_header_rows (hdr : String) (rows : List String)
    (hh : noNL hdr) (hr : ∀ r ∈ rows, noNL r) :
    linesOf (contentOf (hdr :: rows.map (fun r => "\n" ++ r)))
      = hdr.data :: rows.map String.data := by
  rw [linesOf, contentOf, String.data_append, contentOf_data, List.map_map]
  have hmap : (rows.map (String.data ∘ fun r => "\n" ++ r))
      = rows.map (fun r => '\n' :: r.data) := by
    apply List.map_congr_left
    intro r _
    show (("\n" : String) ++ r).data = '\n' :: r.data
    rw [String.data_append]
    rfl
  rw [hmap]
  have hfl := splitLinesC_flatten rows hr
  have happ := splitLinesC_append hdr.data hh _ _ _ hfl
  simpa using happ

/-! ## Setup and construction lemmas -/

theorem setupFilesLoop_ok_inv (lg : Logger) (gs : List String)
    (acc files : Dict (List String)) (hnd : gs.Nodup)
    (hdis : ∀ g ∈ gs, g ∉ Dict.keys acc)
    (h : setupFilesLoop lg gs acc = Except.ok files) :
    files = acc ++ gs.map (fun g => (g, [headerOf lg g])) := by
  induction gs generalizing acc with
  | nil =>
    simp only [setupFilesLoop] at h
    cases h
    simp
  | cons g gs ih =>
    rw [setupFilesLoop] at h
    by_cases hz : (metricsOf lg g).length = 0
    · rw [if_pos hz] at h; cases h
    · rw [if_neg hz] at h
      have hga : g ∉ Dict.keys acc := hdis g (List.mem_cons_self g gs)
      rw [Dict.set_set, Dict.set_of_not_mem _ _ _ hga] at h
      have hnd' := (List.nodup_cons.mp hnd).2
      have hgg := (List.nodup_cons.mp hnd).1
      have hdis' : ∀ x ∈ gs, x ∉ Dict.keys (acc ++ [(g, [headerOf lg g])]) := by
        intro x hx hmem
        simp only [Dict.keys, List.map_append, List.mem_append] at hmem
        rcases hmem with hmem | hmem
        · exact hdis x (List.mem_cons_of_mem _ hx) hmem
        · simp only [List.map_cons, List.map_nil, List.mem_singleton] at hmem
          exact hgg (hmem ▸ hx)
      have := ih _ hnd' hdis' h
      rw [this]
      simp

theorem setupFilesLoop_err (lg : Logger) (gs : List String)
    (acc : Dict (List String)) (h : ∃ g ∈ gs, metricsOf lg g = []) :
    ∃ m, setupFilesLoop lg gs acc = Except.error (Err.configurationError m) := by
  induction gs generalizing acc with
  | nil => rcases h with ⟨g, hg, _⟩; cases hg
  | cons g gs ih =>
    rw [setupFilesLoop]
    by_cases hz : (metricsOf lg g).length = 0
    · rw [if_pos hz]
      exact ⟨_, rfl⟩
    · rw [if_neg hz]
      rcases h with ⟨x, hx, hxe⟩
      rcases List.mem_cons.mp hx with he | hx'
      · exfalso
        apply hz
        rw [← he, hxe]
        rfl
      · exact ih _ ⟨x, hx', hxe⟩

theorem Logger.setup_local_inv {lg1 lg : Logger} {r : Bool}
    (h : Logger.setup_local lg1 r = Except.ok lg) :
    ∃ files, setupFilesLoop lg1 lg1.metric_groups [] = Except.ok files ∧
      lg = { lg1 with metrics_files := some files, status_file := some "started" } := by
  rw [Logger.setup_local] at h
  cases r with
  | false => simp at h
  | true =>
    rw [if_neg (by decide : ¬((!true) = true))] at h
    cases hL : setupFilesLoop lg1 lg1.metric_groups [] with
    | error e => rw [hL] at h; cases h
    | ok files =>
      rw [hL] at h
      exact ⟨files, rfl, (Except.ok.inj h).symm⟩

theorem Logger.setup_wandb_inv {lg1 lg : Logger} {r : Bool}
    (h : Logger.setup_wandb lg1 r = Except.ok lg) : lg = lg1 := by
  rw [Logger.setup_wandb] at h
  by_cases hok : lg1.metrics.all (fun p => p.2.all (fun m => m.length == 2)) = true
  · rw [if_pos hok] at h; exact (Except.ok.inj h).symm
  · rw [if_neg hok] at h; cases h

theorem Logger.setup_dispatch_preserved {lg1 lg : Logger} {r : Bool}
    (h : (if lg1.log_mode = LogMode.LOCAL then Logger.setup_local lg1 r
          else if lg1.log_mode = LogMode.WANDB then Logger.setup_wandb lg1 r
          else Except.ok lg1) = Except.ok lg) :
    lg.log_mode = lg1.log_mode ∧ lg.metric_groups = lg1.metric_groups ∧
    lg.step_metrics = lg1.step_metrics ∧ lg.metrics = lg1.metrics ∧
    lg.summary = lg1.summary ∧ lg.bin_size = lg1.bin_size ∧
    lg.files_closed = lg1.files_closed ∧ lg.is_finished = lg1.is_finished ∧
    lg.files_dir = lg1.files_dir := by
  by_cases hm : lg1.log_mode = LogMode.LOCAL
  · rw [if_pos hm] at h
    rcases Logger.setup_local_inv h with ⟨files, _, he⟩
    subst he
    exact ⟨rfl, rfl, rfl, rfl, rfl, rfl, rfl, rfl, rfl⟩
  · rw [if_neg hm] at h
    by_cases hw : lg1.log_mode = LogMode.WANDB
    · rw [if_pos hw] at h
      rw [Logger.setup_wandb_inv h]
      exact ⟨rfl, rfl, rfl, rfl, rfl, rfl, rfl, rfl, rfl⟩
    · rw [if_neg hw] at h
      rw [← Except.ok.inj h]
      exact ⟨rfl, rfl, rfl, rfl, rfl, rfl, rfl, rfl, rfl⟩

theorem Logger.setup_preserved {lg0 lg : Logger} {r : Bool}
    (h : Logger.setup lg0 r = Except.ok lg) :
    lg.log_mode = lg0.log_mode ∧ lg.metric_groups = lg0.metric_groups ∧
    lg.step_metrics = lg0.step_metrics ∧ lg.metrics = lg0.metrics ∧
    lg.summary = lg0.summary ∧ lg.bin_size = lg0.bin_size ∧
    lg.files_closed = lg0.files_closed ∧ lg.is_finished = lg0.is_finished ∧
    lg.files_dir = lg0.files_dir := by
  simp only [Logger.setup] at h
  by_cases he : lg0.is_enabled = true
  · rw [if_pos he] at h
    by_cases hb : lg0.bin_size.isSome = true
    · rw [if_pos hb] at h
      have hd := Logger.setup_dispatch_preserved h
      exact hd
    · rw [if_neg hb] at h
      have hd := Logger.setup_dispatch_preserved h
      exact hd
  · rw [if_neg he] at h
    rw [← Except.ok.inj h]
    exact ⟨rfl, rfl, rfl, rfl, rfl, rfl, rfl, rfl, rfl⟩

theorem Logger.init_inv {setList : List String → List String} {log_mode : String}
    {metrics : Dict (String × List String)} {bin_size : BinArg}
    {wandb_mode : String} {reinit : Bool} {lg : Logger}
    (h : Logger.init setList log_mode metrics bin_size wandb_mode reinit = Except.ok lg) :
    parseLogMode log_mode = Except.ok lg.log_mode ∧
    lg.metric_groups = metrics.map Prod.fst ∧
    lg.step_metrics = metrics.map (fun p => (p.1, p.2.1)) ∧
    lg.metrics = metrics.map (fun p => (p.1, pySetMinus setList p.2.2 p.2.1)) ∧
    (∃ bs, binResolve bin_size (metrics.map Prod.fst) = Except.ok bs ∧ lg.bin_size = bs) ∧
    lg.files_closed = false ∧ lg.is_finished = false ∧ lg.files_dir = [] ∧
    lg.summary = (if lg.log_mode = LogMode.LOCAL then
        some (metrics.map (fun p =>
          (p.1, (pySetMinus setList p.2.2 p.2.1).map (fun m => (m, (none : Option Val)))
                ++ [(p.2.1, none)]))) else none) := by
  rw [Logger.init] at h
  split at h
  · cases h
  next mode hmode =>
    dsimp only [] at h
    split at h
    · cases h
    next hwm =>
      split at h
      · cases h
      next bs hbs =>
        split at h
        case isTrue hloc =>
          have hml : mode = LogMode.LOCAL := by
            simp only [Bool.and_eq_true, beq_iff_eq] at hloc
            exact hloc.2
          split at h
          case isTrue henb =>
            obtain ⟨e1, e2, e3, e4, e5, e6, e7, e8, e9⟩ := Logger.setup_preserved h
            have f1 : lg.log_mode = mode := e1
            have f5 : lg.summary = some (metrics.map (fun p =>
                (p.1, (pySetMinus setList p.2.2 p.2.1).map (fun m => (m, (none : Option Val)))
                      ++ [(p.2.1, none)]))) := e5
            refine ⟨by rw [f1]; exact hmode, e2, e3, e4, ⟨bs, hbs, e6⟩, e7, e8, e9, ?_⟩
            rw [f1, hml, if_pos rfl]
            exact f5
          case isFalse henb =>
            cases h
            exact ⟨hmode, rfl, rfl, rfl, ⟨bs, hbs, rfl⟩, rfl, rfl, rfl, by simp [hml]⟩
        case isFalse hloc =>
          have hml : mode ≠ LogMode.LOCAL := by
            intro e
            subst e
            simp at hloc
          split at h
          case isTrue henb =>
            obtain ⟨e1, e2, e3, e4, e5, e6, e7, e8, e9⟩ := Logger.setup_preserved h
            have f1 : lg.log_mode = mode := e1
            have f5 : lg.summary = none := e5
            refine ⟨by rw [f1]; exact hmode, e2, e3, e4, ⟨bs, hbs, e6⟩, e7, e8, e9, ?_⟩
            rw [f1, if_neg hml]
            exact f5
          case isFalse henb =>
            cases h
            exact ⟨hmode, rfl, rfl, rfl, ⟨bs, hbs, rfl⟩, rfl, rfl, rfl, by simp [hml]⟩

theorem headerOf_congr {lgA lgB : Logger} (hstep : lgA.step_metrics = lgB.step_metrics)
    (hmet : lgA.metrics = lgB.metrics) (g : String) : headerOf lgA g = headerOf lgB g := by
  rw [headerOf, headerOf, stepOf, stepOf, metricsOf, metricsOf, hstep, hmet]

theorem Logger.setup_dispatch_local {lg1 lg : Logger} {r : Bool}
    (h : (if lg1.log_mode = LogMode.LOCAL then Logger.setup_local lg1 r
          else if lg1.log_mode = LogMode.WANDB then Logger.setup_wandb lg1 r
          else Except.ok lg1) = Except.ok lg)
    (hm : lg1.log_mode = LogMode.LOCAL) (hnd : lg1.metric_groups.Nodup) :
    lg.metrics_files = some (lg1.metric_groups.map (fun g => (g, [headerOf lg g]))) ∧
    lg.status_file = some "started" := by
  rw [if_pos hm] at h
  rcases Logger.setup_local_inv h with ⟨files, hL, he⟩
  have hfiles := setupFilesLoop_ok_inv lg1 lg1.metric_groups [] files hnd
    (by intro g hg hmem; simp [Dict.keys] at hmem) hL
  subst he
  refine ⟨?_, rfl⟩
  show some files = _
  rw [hfiles]
  rfl

theorem Logger.setup_local_fields {lg0 lg : Logger} {r : Bool}
    (h : Logger.setup lg0 r = Except.ok lg)
    (hm : lg0.log_mode = LogMode.LOCAL) (hnd : lg0.metric_groups.Nodup) :
    lg.metrics_files = some (lg0.metric_groups.map (fun g => (g, [headerOf lg g]))) ∧
    lg.status_file = some "started" := by
  simp only [Logger.setup] at h
  have he : lg0.is_enabled = true := by simp [Logger.is_enabled, hm]
  rw [if_pos he] at h
  by_cases hb : lg0.bin_size.isSome = true
  · rw [if_pos hb] at h
    have hd := Logger.setup_dispatch_local h hm hnd
    exact hd
  · rw [if_neg hb] at h
    have hd := Logger.setup_dispatch_local h hm hnd
    exact hd

theorem Logger.init_local_ok {setList : List String → List String}
    {metrics : Dict (String × List String)} {bin_size : BinArg}
    {wandb_mode : String} {reinit : Bool} {lg : Logger}
    (hnd : (metrics.map Prod.fst).Nodup)
    (h : Logger.init setList "local" metrics bin_size wandb_mode reinit = Except.ok lg) :
    lg.log_mode = LogMode.LOCAL ∧
    lg.metrics_files = some ((metrics.map Prod.fst).map (fun g => (g, [headerOf lg g]))) ∧
    lg.status_file = some "started" := by
  rw [Logger.init] at h
  split at h
  · cases h
  next mode hmode =>
    dsimp only [] at h
    have hm0 : mode = LogMode.LOCAL := (Except.ok.inj hmode).symm
    subst hm0
    split at h
    · cases h
    next hwm =>
      split at h
      · cases h
      next bs hbs =>
        split at h
        case isTrue hloc =>
          split at h
          case isTrue henb =>
            have hfields := Logger.setup_local_fields h rfl hnd
            exact ⟨(Logger.setup_preserved h).1, hfields.1, hfields.2⟩
          case isFalse henb => exact absurd rfl henb
        case isFalse hloc => exact absurd (by decide) hloc

theorem Logger.to_row_ok {lg : Logger} {d : Record} {group : String}
    (h : stepOf lg group ∈ Dict.keys d) :
    Logger.to_row lg d group false
      = Except.ok (rowStrOf (stepOf lg group) (metricsOf lg group) d) := by
  simp only [Logger.to_row, rowStrOf, Bool.false_and]
  rw [if_neg (fun hc => hc h)]
  rfl

theorem Logger.to_row_err {lg : Logger} {d : Record} {group : String} {ck : Bool}
    (h : stepOf lg group ∉ Dict.keys d) :
    Logger.to_row lg d group ck
      = Except.error (Err.validationError
          ("step_metric=" ++ stepOf lg group ++ " not specified in d")) := by
  simp only [Logger.to_row]
  rw [if_pos h]

theorem Logger.log_step_ok {lg : Logger} {g : String} {d : Record}
    {s : Dict (Dict (Option Val))} {gs : Dict (Option Val)}
    {files : Dict (List String)} {chunks : List String}
    (hmode : lg.log_mode = LogMode.LOCAL)
    (hsum : lg.summary = some s) (hgs : Dict.get? s g = some gs)
    (hfiles : lg.metrics_files = some files) (hchunks : Dict.get? files g = some chunks)
    (hclosed : lg.files_closed = false)
    (hg : g ∈ Dict.keys lg.metrics)
    (hstep : stepOf lg g ∈ Dict.keys d) :
    Logger.log lg d g false =
      Except.ok { lg with
        summary := some (Dict.set s g (copyToDict d gs)),
        metrics_files := some (Dict.set files g
          (chunks ++ ["\n" ++ rowStrOf (stepOf lg g) (metricsOf lg g) d])) } := by
  rw [Logger.log]
  rw [if_neg (by simp [Logger.is_enabled, hmode])]
  rw [if_neg (fun hc => hc hg)]
  simp only [Bool.false_and]
  rw [if_neg (by simp)]
  rw [if_pos hmode]
  rw [Logger.log_local]
  rw [if_neg (fun hc => hc hg)]
  rw [hsum]
  dsimp only []
  rw [hgs]
  dsimp only []
  have hrow := @Logger.to_row_ok { lg with summary := some (Dict.set s g (copyToDict d gs)) } d g hstep
  rw [hrow]
  dsimp only []
  rw [hfiles]
  dsimp only []
  rw [hchunks]
  dsimp only []
  rw [if_neg (by simp [hclosed])]
  rfl

theorem Logger.log_step_err {lg : Logger} {g : String} {d : Record}
    {s : Dict (Dict (Option Val))} {gs : Dict (Option Val)}
    (hmode : lg.log_mode = LogMode.LOCAL)
    (hsum : lg.summary = some s) (hgs : Dict.get? s g = some gs)
    (hg : g ∈ Dict.keys lg.metrics)
    (hstep : stepOf lg g ∉ Dict.keys d) :
    Logger.log lg d g false =
      Except.error (Err.validationError
          ("step_metric=" ++ stepOf lg g ++ " not specified in d"),
        { lg with summary := some (Dict.set s g (copyToDict d gs)) }) := by
  rw [Logger.log]
  rw [if_neg (by simp [Logger.is_enabled, hmode])]
  rw [if_neg (fun hc => hc hg)]
  simp only [Bool.false_and]
  rw [if_neg (by simp)]
  rw [if_pos hmode]
  rw [Logger.log_local]
  rw [if_neg (fun hc => hc hg)]
  rw [hsum]
  dsimp only []
  rw [hgs]
  dsimp only []
  have hrow := @Logger.to_row_err
    { lg with summary := some (Dict.set s g (copyToDict d gs)) } d g false hstep
  rw [hrow]
  rfl

theorem logAll_chunks {g st : String} {cols : List String}
    (records : List Record) (lg lg' : Logger)
    (s : Dict (Dict (Option Val))) (gs : Dict (Option Val))
    (files : Dict (List String)) (chunks : List String)
    (hmode : lg.log_mode = LogMode.LOCAL) (hclosed : lg.files_closed = false)
    (hsum : lg.summary = some s) (hgs : Dict.get? s g = some gs)
    (hfiles : lg.metrics_files = some files) (hchunks : Dict.get? files g = some chunks)
    (hg : g ∈ Dict.keys lg.metrics)
    (hst : stepOf lg g = st) (hcols : metricsOf lg g = cols)
    (hrun : logAll g lg records = Except.ok lg') :
    fileChunks lg' g = chunks ++ records.map (fun d => "\n" ++ rowStrOf st cols d) := by
  induction records generalizing lg s gs files chunks with
  | nil =>
    rw [logAll] at hrun
    rw [← Except.ok.inj hrun]
    rw [fileChunks, hfiles]
    simp [hchunks]
  | cons d ds ih =>
    rw [logAll] at hrun
    by_cases hstep : stepOf lg g ∈ Dict.keys d
    · have hlog := Logger.log_step_ok hmode hsum hgs hfiles hchunks hclosed hg hstep
      rw [hlog] at hrun
      dsimp only [] at hrun
      have hrec := ih { lg with
          summary := some (Dict.set s g (copyToDict d gs)),
          metrics_files := some (Dict.set files g
            (chunks ++ ["\n" ++ rowStrOf (stepOf lg g) (metricsOf lg g) d])) }
        (Dict.set s g (copyToDict d gs)) (copyToDict d gs)
        (Dict.set files g (chunks ++ ["\n" ++ rowStrOf (stepOf lg g) (metricsOf lg g) d]))
        (chunks ++ ["\n" ++ rowStrOf (stepOf lg g) (metricsOf lg g) d])
        hmode hclosed rfl (Dict.get?_set_self s g (copyToDict d gs)) rfl
        (Dict.get?_set_self files g
          (chunks ++ ["\n" ++ rowStrOf (stepOf lg g) (metricsOf lg g) d]))
        hg hst hcols hrun
      rw [hrec, hst, hcols]
      simp
    · have hlog := Logger.log_step_err hmode hsum hgs hg hstep
      rw [hlog] at hrun
      cases hrun

/-! ## Set-order lemmas -/

theorem insertionDedupAux_mem (xs : List String) :
    ∀ (seen : List String) (a : String),
      a ∈ insertionDedupAux xs seen ↔ a ∈ xs ∧ a ∉ seen := by
  induction xs with
  | nil => intro seen a; simp [insertionDedupAux]
  | cons x xs ih =>
    intro seen a
    rw [insertionDedupAux]
    by_cases hx : x ∈ seen
    · rw [if_pos hx, ih]
      constructor
      · rintro ⟨h1, h2⟩
        exact ⟨List.mem_cons_of_mem _ h1, h2⟩
      · rintro ⟨h1, h2⟩
        rcases List.mem_cons.mp h1 with e | hm
        · subst e; exact absurd hx h2
        · exact ⟨hm, h2⟩
    · rw [if_neg hx]
      constructor
      · intro hm
        rcases List.mem_cons.mp hm with e | hm2
        · subst e; exact ⟨List.mem_cons_self a xs, hx⟩
        · rcases (ih (x :: seen) a).mp hm2 with ⟨h1, h2⟩
          exact ⟨List.mem_cons_of_mem _ h1, fun hs => h2 (List.mem_cons_of_mem _ hs)⟩
      · rintro ⟨h1, h2⟩
        rcases List.mem_cons.mp h1 with e | hm
        · subst e; exact List.mem_cons_self a _
        · by_cases hax : a = x
          · subst hax; exact List.mem_cons_self a _
          · refine List.mem_cons_of_mem _ ((ih (x :: seen) a).mpr ⟨hm, ?_⟩)
            intro hs
            rcases List.mem_cons.mp hs with e2 | hs2
            · exact hax e2
            · exact h2 hs2

theorem insertionDedup_mem (xs : List String) (a : String) :
    a ∈ insertionDedup xs ↔ a ∈ xs := by
  rw [insertionDedup, insertionDedupAux_mem]
  simp

theorem insertionDedupAux_nodup (xs : List String) :
    ∀ seen : List String, (insertionDedupAux xs seen).Nodup := by
  induction xs with
  | nil => intro seen; rw [insertionDedupAux]; exact List.nodup_nil
  | cons x xs ih =>
    intro seen
    rw [insertionDedupAux]
    by_cases hx : x ∈ seen
    · rw [if_pos hx]; exact ih seen
    · rw [if_neg hx]
      refine List.nodup_cons.mpr ⟨?_, ih (x :: seen)⟩
      intro hm
      rcases (insertionDedupAux_mem xs (x :: seen) x).mp hm with ⟨_, h2⟩
      exact h2 (List.mem_cons_self x seen)

theorem insertionDedup_nodup (xs : List String) : (insertionDedup xs).Nodup :=
  insertionDedupAux_nodup xs []

theorem setListOK_insertionDedup : SetListOK insertionDedup :=
  fun xs => ⟨insertionDedup_nodup xs, fun a => insertionDedup_mem xs a⟩

theorem setListOK_fwd : SetListOK fwdSetList := setListOK_insertionDedup

theorem setListOK_rev : SetListOK revSetList := by
  intro xs
  refine ⟨?_, ?_⟩
  · show ((insertionDedup xs).reverse).Nodup
    exact (List.nodup_reverse).mpr (insertionDedup_nodup xs)
  · intro a
    show a ∈ (insertionDedup xs).reverse ↔ a ∈ xs
    rw [List.mem_reverse]
    exact insertionDedup_mem xs a

/-! ## Claim theorems -/

/-- C1: the claim states that `b` consecutive `log_binned` calls with
constant records produce exactly one internal `log()` call with the exact
mean, resetting the counter but not the averages.  The code cannot do this:
`_setup` initialises `self._metric_n[group]` to a per-metric dict
(logger.py line 196) while `log_binned` computes `self._metric_n[group] + 1`
(line 441), so the very first `log_binned` call raises `TypeError`
(`dict + int`) and no call ever reaches the flush.  This theorem evaluates
the code at the failing input: a local logger with bin size 3 for group
`train`, first record `{"m1": 5}`. -/
theorem c1_log_binned_first_call_type_error :
    Logger.init fwdSetList "local" [("train", ("step", ["m1"]))]
      (BinArg.int 3) "online" true = Except.ok lgC1 ∧
    Logger.log_binned lgC1 [("m1", 5)] "train"
      = Except.error (Err.typeError "unsupported operand type(s) for +: dict and int", lgC1) :=
  ⟨by decide, by decide⟩

/-- C2: the claim states that a second `finish()` on the same logger raises
`AlreadyFinishedError`.  The source's guard reads `self._is_finished`, but no
code path ever assigns `True` to it, so the second `finish()` passes the
guard and silently redoes the finish work.  Evaluation on a local logger:
the first and the second `finish()` both succeed. -/
theorem c2_finish_twice_succeeds :
    Logger.init fwdSetList "local" [("train", ("step", ["m1"]))]
      BinArg.noneArg "online" true = Except.ok lgC2 ∧
    exOk (Logger.finish lgC2) = true ∧
    exOk (finishTwice lgC2) = true :=
  ⟨by decide, by decide, by decide⟩

/-- C6 counterexample: the claim states that for every log mode, a group
whose metric list is empty after removing the step metric and duplicates
makes construction fail with `ConfigurationError`.  The check lives only in
`_setup_local`, so a disabled-mode construction with such a group succeeds:
group `g` has step metric `s` and metric list `["s"]`, which is empty after
removing the step metric, yet `Logger.init` returns `ok`. -/
theorem c6_counterexample :
    pySetMinus fwdSetList ["s"] "s" = [] ∧
    exOk (Logger.init fwdSetList "disabled" [("g", ("s", ["s"]))]
      BinArg.noneArg "online" true) = true :=
  ⟨by decide, by decide⟩

theorem setupFilesLoop_err_shape (lg : Logger) (gs : List String)
    (acc : Dict (List String)) (e : Err)
    (h : setupFilesLoop lg gs acc = Except.error e) :
    ∃ msg, e = Err.configurationError msg := by
  induction gs generalizing acc with
  | nil => rw [setupFilesLoop] at h; cases h
  | cons g gs ih =>
    rw [setupFilesLoop] at h
    split at h
    · exact ⟨_, (Except.error.inj h).symm⟩
    · exact ih _ h

theorem binResolve_err_shape {bin : BinArg} {groups : List String} {e : Err}
    (h : binResolve bin groups = Except.error e) :
    ∃ msg, e = Err.configurationError msg := by
  cases bin with
  | noneArg => cases h
  | int b => cases h
  | dict bd =>
    rw [binResolve] at h
    split at h
    · cases h
    · exact ⟨_, (Except.error.inj h).symm⟩
  | other => exact ⟨_, (Except.error.inj h).symm⟩

theorem Logger.setup_dispatch_err_shape {lg1 : Logger} {e : Err}
    (h : (if lg1.log_mode = LogMode.LOCAL then Logger.setup_local lg1 true
          else if lg1.log_mode = LogMode.WANDB then Logger.setup_wandb lg1 true
          else Except.ok lg1) = Except.error e)
    (hm : lg1.log_mode = LogMode.LOCAL) :
    ∃ msg, e = Err.configurationError msg := by
  rw [if_pos hm, Logger.setup_local] at h
  rw [if_neg (by decide : ¬((!true) = true))] at h
  split at h
  next e4 h4 =>
    rcases setupFilesLoop_err_shape _ _ _ _ h4 with ⟨m, hm2⟩
    exact ⟨m, by rw [← Except.error.inj h, hm2]⟩
  next files h4 => cases h

theorem Logger.setup_err_shape {lg0 : Logger} {e : Err}
    (h : Logger.setup lg0 true = Except.error e)
    (hm : lg0.log_mode = LogMode.LOCAL) :
    ∃ msg, e = Err.configurationError msg := by
  simp only [Logger.setup] at h
  by_cases he : lg0.is_enabled = true
  · rw [if_pos he] at h
    by_cases hb : lg0.bin_size.isSome = true
    · rw [if_pos hb] at h
      exact Logger.setup_dispatch_err_shape h hm
    · rw [if_neg hb] at h
      exact Logger.setup_dispatch_err_shape h hm
  · rw [if_neg he] at h
    cases h

theorem Logger.setup_dispatch_loop_ok {lg1 lg : Logger} {r : Bool}
    (h : (if lg1.log_mode = LogMode.LOCAL then Logger.setup_local lg1 r
          else if lg1.log_mode = LogMode.WANDB then Logger.setup_wandb lg1 r
          else Except.ok lg1) = Except.ok lg)
    (hm : lg1.log_mode = LogMode.LOCAL) :
    ∃ lg2 files, lg2.metric_groups = lg1.metric_groups ∧ lg2.metrics = lg1.metrics ∧
      setupFilesLoop lg2 lg2.metric_groups [] = Except.ok files := by
  rw [if_pos hm] at h
  rcases Logger.setup_local_inv h with ⟨files, hL, _⟩
  exact ⟨lg1, files, rfl, rfl, hL⟩

theorem Logger.setup_loop_ok {lg0 lg : Logger} {r : Bool}
    (h : Logger.setup lg0 r = Except.ok lg) (hm : lg0.log_mode = LogMode.LOCAL) :
    ∃ lg2 files, lg2.metric_groups = lg0.metric_groups ∧ lg2.metrics = lg0.metrics ∧
      setupFilesLoop lg2 lg2.metric_groups [] = Except.ok files := by
  simp only [Logger.setup] at h
  by_cases he : lg0.is_enabled = true
  · rw [if_pos he] at h
    by_cases hb : lg0.bin_size.isSome = true
    · rw [if_pos hb] at h
      have hd := Logger.setup_dispatch_loop_ok h hm
      exact hd
    · rw [if_neg hb] at h
      have hd := Logger.setup_dispatch_loop_ok h hm
      exact hd
  · rw [if_neg he] at h
    exact absurd (by simp [Logger.is_enabled, hm]) he

theorem init_local_err_shape {setList : List String → List String}
    {metrics : Dict (String × List String)} {bin_size : BinArg}
    {wandb_mode : String} {e : Err}
    (h : Logger.init setList "local" metrics bin_size wandb_mode true
      = Except.error e) :
    ∃ msg, e = Err.configurationError msg := by
  rw [Logger.init] at h
  split at h
  next e2 hp => simp [parseLogMode] at hp
  next mode hmode =>
    dsimp only [] at h
    have hm0 : mode = LogMode.LOCAL := (Except.ok.inj hmode).symm
    subst hm0
    split at h
    · exact ⟨_, (Except.error.inj h).symm⟩
    next hwm =>
      split at h
      next e3 hb3 =>
        rcases binResolve_err_shape hb3 with ⟨m, hm⟩
        exact ⟨m, by rw [← Except.error.inj h, hm]⟩
      next bs hbs =>
        split at h
        case isFalse hloc => exact absurd (by decide) hloc
        case isTrue hloc =>
          split at h
          case isFalse henb => cases h
          case isTrue henb => exact Logger.setup_err_shape h rfl

theorem init_local_empty_no_ok {setList : List String → List String}
    {metrics : Dict (String × List String)} {bin_size : BinArg}
    {wandb_mode : String} {lg : Logger}
    (hset : SetListOK setList) (hnd : (metrics.map Prod.fst).Nodup)
    (hempty : ∃ p ∈ metrics, ∀ m ∈ p.2.2, m = p.2.1)
    (h : Logger.init setList "local" metrics bin_size wandb_mode true
      = Except.ok lg) : False := by
  rcases hempty with ⟨p, hp, hpall⟩
  have hfil : p.2.2.filter (fun m => decide (m ≠ p.2.1)) = [] := by
    rw [List.eq_nil_iff_forall_not_mem]
    intro m hm
    rcases List.mem_filter.mp hm with ⟨hm1, hm2⟩
    exact absurd (hpall m hm1) (of_decide_eq_true hm2)
  have hpm : pySetMinus setList p.2.2 p.2.1 = [] := by
    rw [pySetMinus, hfil]
    rw [List.eq_nil_iff_forall_not_mem]
    intro m hm
    exact List.not_mem_nil m (((hset []).2 m).mp hm)
  have hmet : (Dict.get? (metrics.map
      (fun q => (q.1, pySetMinus setList q.2.2 q.2.1))) p.1).getD [] = [] := by
    rw [Dict.get?_map_entry (fun q => pySetMinus setList q.2.2 q.2.1) metrics p hnd hp]
    exact hpm
  rw [Logger.init] at h
  split at h
  · cases h
  next mode hmode =>
    dsimp only [] at h
    have hm0 : mode = LogMode.LOCAL := (Except.ok.inj hmode).symm
    subst hm0
    split at h
    · cases h
    next hwm =>
      split at h
      · cases h
      next bs hbs =>
        split at h
        case isFalse hloc => exact absurd (by decide) hloc
        case isTrue hloc =>
          split at h
          case isFalse henb => exact absurd rfl henb
          case isTrue henb =>
            rcases Logger.setup_loop_ok h rfl with ⟨lg2, files, hgq, hmq, hL⟩
            obtain ⟨msg, herr⟩ := setupFilesLoop_err lg2 lg2.metric_groups []
              ⟨p.1, by rw [hgq]; exact List.mem_map_of_mem Prod.fst hp,
                by rw [metricsOf, hmq]; exact hmet⟩
            rw [herr] at hL
            cases hL

/-- C6 (amended): the empty-after-dedup check runs only during local-mode
setup.  In local mode (with `reinit` left at its default) construction fails
with `ConfigurationError` when some group's metric list is empty after
removing the step-metric name and duplicates; in disabled mode (and in
remote mode, whose setup performs no such check) construction does not
perform the check, as the counterexample shows. -/
theorem c6_local_empty_metrics_error {setList : List String → List String}
    {metrics : Dict (String × List String)} {bin_size : BinArg} {wandb_mode : String}
    (hset : SetListOK setList)
    (hnd : (metrics.map Prod.fst).Nodup)
    (hempty : ∃ p ∈ metrics, ∀ m ∈ p.2.2, m = p.2.1) :
    ∃ msg, Logger.init setList "local" metrics bin_size wandb_mode true
      = Except.error (Err.configurationError msg) := by
  cases hres : Logger.init setList "local" metrics bin_size wandb_mode true with
  | ok lg => exact absurd hres (init_local_empty_no_ok hset hnd hempty)
  | error e =>
    rcases init_local_err_shape hres with ⟨m, hm⟩
    exact ⟨m, by rw [hm]⟩

/-- Witness for the amended C6, applied at a concrete local logger whose
only group's metric list contains just the step metric. -/
theorem c6_local_empty_metrics_error_witness :
    SetListOK fwdSetList ∧
    (∃ msg, Logger.init fwdSetList "local" [("g", ("s", ["s"]))]
      BinArg.noneArg "online" true = Except.error (Err.configurationError msg)) :=
  ⟨setListOK_fwd,
    c6_local_empty_metrics_error setListOK_fwd (by decide)
      ⟨("g", ("s", ["s"])), by decide, by decide⟩⟩

/-- C7 counterexample: the claim asserts the header's metric-name order is
the insertion order of the caller-supplied list.  The source computes the
column order as `list(set(ms).difference({step}))` (logger.py line 113),
whose order is an arbitrary set-iteration order.  `revSetList` is an
admissible set order (no duplicates, same membership); constructing with it
yields the header `step,m2,m1`, not the insertion-order header
`step,m1,m2` demanded by the claim (`specColumnOrder` is the spec's order,
modelled from its words). -/
theorem c7_counterexample :
    SetListOK revSetList ∧
    Logger.init revSetList "local" [("g", ("step", ["m1", "m2"]))]
      BinArg.noneArg "online" true = Except.ok lgC7 ∧
    fileChunks lgC7 "g" = ["step,m2,m1"] ∧
    "step,m2,m1" ≠ "step," ++ pyJoin "," (specColumnOrder "step" ["m1", "m2"]) :=
  ⟨setListOK_rev, by decide, by decide, by decide⟩

/-- C7 (amended): the header row of `metrics/<g>.csv` is the step-metric
name followed by the group's metric names, comma-separated.  The metric-name
order is the arbitrary iteration order of the Python set built from the
caller's list; only its membership (the caller's list minus the step-metric
name) and duplicate-freeness are guaranteed, not the insertion order. -/
theorem c7_header_content {setList : List String → List String}
    {metrics : Dict (String × List String)} {bin : BinArg} {wm : String} {r : Bool}
    {lg : Logger} {g st : String} {ms : List String}
    (hset : SetListOK setList)
    (hnd : (metrics.map Prod.fst).Nodup)
    (hp : (g, (st, ms)) ∈ metrics)
    (hinit : Logger.init setList "local" metrics bin wm r = Except.ok lg) :
    fileChunks lg g = [stepOf lg g ++ "," ++ pyJoin "," (metricsOf lg g)] ∧
    stepOf lg g = st ∧
    metricsOf lg g = pySetMinus setList ms st ∧
    (metricsOf lg g).Nodup ∧
    (∀ m, m ∈ metricsOf lg g ↔ m ∈ ms ∧ m ≠ st) := by
  have hinv := Logger.init_inv hinit
  have hloc := Logger.init_local_ok hnd hinit
  have hgmem : g ∈ metrics.map Prod.fst := List.mem_map_of_mem Prod.fst hp
  have hstep : stepOf lg g = st := by
    have hq : Dict.get? (metrics.map (fun q => (q.1, q.2.1))) g = some st :=
      Dict.get?_map_entry (fun q => q.2.1) metrics (g, (st, ms)) hnd hp
    rw [stepOf, hinv.2.2.1, hq]
    rfl
  have hmet : metricsOf lg g = pySetMinus setList ms st := by
    have hq : Dict.get? (metrics.map
        (fun q => (q.1, pySetMinus setList q.2.2 q.2.1))) g
        = some (pySetMinus setList ms st) :=
      Dict.get?_map_entry (fun q => pySetMinus setList q.2.2 q.2.1) metrics
        (g, (st, ms)) hnd hp
    rw [metricsOf, hinv.2.2.2.1, hq]
    rfl
  have hchunks : fileChunks lg g = [headerOf lg g] := by
    rw [fileChunks, hloc.2.1]
    dsimp only [Option.bind]
    rw [Dict.get?_map_self (fun g2 => [headerOf lg g2]) (metrics.map Prod.fst) g hgmem]
    rfl
  refine ⟨hchunks, hstep, hmet, ?_, ?_⟩
  · rw [hmet, pySetMinus]
    exact (hset _).1
  · intro m
    rw [hmet, pySetMinus]
    rw [(hset _).2 m]
    simp [List.mem_filter]

/-- Witness for the amended C7: with the keep-first set order the header of
the concrete logger is `step,m1,m2`. -/
theorem c7_header_content_witness :
    SetListOK fwdSetList ∧ fileChunks lgC7w "g" = ["step,m1,m2"] := by
  have h := @c7_header_content fwdSetList [("g", ("step", ["m1", "m2"]))]
    BinArg.noneArg "online" true lgC7w "g" "step" ["m1", "m2"]
    setListOK_fwd (by decide) (by decide) rfl
  exact ⟨setListOK_fwd, h.1.trans (by decide)⟩

/-- C9: construction fails with `ConfigurationError` for an invalid mode
selector (before any other processing), for a dict `bin_size` whose key set
differs from the group names, and for a `bin_size` that is neither an int
nor a dict (the `TypeError` at logger.py line 147, named `ConfigurationError`
by the spec); a single integer `bin_size` is accepted and applied to every
group.  The bin-size checks run after the mode and `wandb_mode` validations,
hence those hypotheses. -/
theorem c9_construction_validation :
    (∀ (setList : List String → List String) (modeStr : String)
        (metrics : Dict (String × List String)) (bin : BinArg) (wm : String) (r : Bool),
        modeStr ∉ (["disabled", "wandb", "local"] : List String) →
        Logger.init setList modeStr metrics bin wm r
          = Except.error (Err.configurationError ("Invalid value for log_mode=" ++ modeStr))) ∧
    (∀ (setList : List String → List String) (modeStr : String) (mode : LogMode)
        (metrics : Dict (String × List String)) (bd : Dict Int) (wm : String) (r : Bool),
        parseLogMode modeStr = Except.ok mode →
        wm ∈ (["online", "local", "disabled"] : List String) →
        ¬ (∀ x, x ∈ Dict.keys bd ↔ x ∈ metrics.map Prod.fst) →
        Logger.init setList modeStr metrics (BinArg.dict bd) wm r
          = Except.error (Err.configurationError "Keys of bin_size must be same as keys of metrics")) ∧
    (∀ (setList : List String → List String) (modeStr : String) (mode : LogMode)
        (metrics : Dict (String × List String)) (wm : String) (r : Bool),
        parseLogMode modeStr = Except.ok mode →
        wm ∈ (["online", "local", "disabled"] : List String) →
        Logger.init setList modeStr metrics BinArg.other wm r
          = Except.error (Err.configurationError "Wrong type for bin_size")) ∧
    (∀ (setList : List String → List String) (modeStr : String)
        (metrics : Dict (String × List String)) (wm : String) (r : Bool)
        (b : Int) (lg : Logger),
        Logger.init setList modeStr metrics (BinArg.int b) wm r = Except.ok lg →
        lg.bin_size = some ((metrics.map Prod.fst).map (fun g => (g, b)))) := by
  refine ⟨?_, ?_, ?_, ?_⟩
  · intro setList modeStr metrics bin wm r hmode
    simp only [List.mem_cons, List.not_mem_nil, or_false, not_or] at hmode
    obtain ⟨h1, h2, h3⟩ := hmode
    rw [Logger.init, parseLogMode, if_neg h1, if_neg h2, if_neg h3]
  · intro setList modeStr mode metrics bd wm r hparse hwm hkeys
    rw [Logger.init, hparse]
    dsimp only []
    rw [if_neg (fun hc => hc hwm)]
    have hks : ¬ sameKeySet (Dict.keys bd) (Dict.keys metrics) = true := by
      intro hc
      exact hkeys ((sameKeySet_iff _ _).mp hc)
    simp only [binResolve]
    rw [if_neg hks]
  · intro setList modeStr mode metrics wm r hparse hwm
    rw [Logger.init, hparse]
    dsimp only []
    rw [if_neg (fun hc => hc hwm)]
    rfl
  · intro setList modeStr metrics wm r b lg hinit
    rcases (Logger.init_inv hinit).2.2.2.2.1 with ⟨bs, hbs, hlgbs⟩
    have h2 : binResolve (BinArg.int b) (metrics.map Prod.fst)
        = Except.ok (some ((metrics.map Prod.fst).map (fun g => (g, b)))) := rfl
    rw [hlgbs, Except.ok.inj (h2.symm.trans hbs)]

/-- Witness for C9: each conjunct applied at a concrete input. -/
theorem c9_witness :
    Logger.init fwdSetList "zzz" [] BinArg.noneArg "online" true
      = Except.error (Err.configurationError "Invalid value for log_mode=zzz") ∧
    Logger.init fwdSetList "local" [("g", ("s", ["m"]))] (BinArg.dict [("h", 2)]) "online" true
      = Except.error (Err.configurationError "Keys of bin_size must be same as keys of metrics") ∧
    Logger.init fwdSetList "disabled" [("g", ("s", ["m"]))] BinArg.other "online" true
      = Except.error (Err.configurationError "Wrong type for bin_size") ∧
    lgC8.bin_size = some [("train", 3)] := by
  obtain ⟨c1, c2, c3, c4⟩ := c9_construction_validation
  refine ⟨c1 fwdSetList "zzz" [] BinArg.noneArg "online" true (by decide),
    c2 fwdSetList "local" LogMode.LOCAL [("g", ("s", ["m"]))] [("h", 2)] "online" true
      rfl (by decide) (fun hall => absurd ((hall "h").mp (by decide)) (by decide)),
    c3 fwdSetList "disabled" LogMode.DISABLED [("g", ("s", ["m"]))] "online" true
      rfl (by decide),
    (c4 fwdSetList "disabled" [("train", ("step", ["m1"]))] "online" true 3 lgC8
      (by decide)).trans (by decide)⟩

/-- C5: `log()` on an unregistered group raises `UnknownGroupError` (the
`ValueError` at logger.py lines 403-405) as the first check of the enabled
path: the returned error carries the logger state unchanged — no summary
update, no file write, no bin-accumulator change. -/
theorem c5_unknown_group {setList : List String → List String} {modeStr : String}
    {metrics : Dict (String × List String)} {bin : BinArg} {wm : String} {r : Bool}
    {lg : Logger} {d : Record} {g : String} {ck : Bool}
    (hmode : modeStr = "wandb" ∨ modeStr = "local")
    (hinit : Logger.init setList modeStr metrics bin wm r = Except.ok lg)
    (hg : g ∉ metrics.map Prod.fst) :
    Logger.log lg d g ck = Except.error (Err.unknownGroupError g, lg) := by
  have hinv := Logger.init_inv hinit
  have hkeys : Dict.keys lg.metrics = metrics.map Prod.fst := by
    rw [hinv.2.2.2.1, Dict.keys, List.map_map]
    exact List.map_congr_left (fun p _ => rfl)
  have hen : lg.is_enabled = true := by
    rcases hmode with e | e
    · subst e
      have h2 : lg.log_mode = LogMode.WANDB := (Except.ok.inj hinv.1).symm
      simp [Logger.is_enabled, h2]
    · subst e
      have h2 : lg.log_mode = LogMode.LOCAL := (Except.ok.inj hinv.1).symm
      simp [Logger.is_enabled, h2]
  rw [Logger.log]
  rw [if_neg (by simp [hen])]
  rw [if_pos (show g ∉ Dict.keys lg.metrics by rw [hkeys]; exact hg)]

/-- Witness for C5: a local logger with group `train`, logged to group
`nope`. -/
theorem c5_unknown_group_witness :
    Logger.log lgC5 [("step", 1)] "nope" true
      = Except.error (Err.unknownGroupError "nope", lgC5) :=
  @c5_unknown_group fwdSetList "local" [("train", ("step", ["m1"]))]
    BinArg.noneArg "online" true lgC5 [("step", 1)] "nope" true
    (Or.inr rfl) rfl (by decide)

theorem Logger.init_disabled_state {setList : List String → List String}
    {metrics : Dict (String × List String)} {bin : BinArg} {wm : String} {r : Bool}
    {lg : Logger}
    (h : Logger.init setList "disabled" metrics bin wm r = Except.ok lg) :
    lg.log_mode = LogMode.DISABLED ∧ lg.metrics_files = none ∧
    lg.status_file = none ∧ lg.summary_file = none ∧ lg.summary = none ∧
    lg.metric_roll_avg = none ∧ lg.metric_n = none ∧ lg.files_dir = [] := by
  rw [Logger.init] at h
  split at h
  · cases h
  next mode hmode =>
    dsimp only [] at h
    have hm0 : mode = LogMode.DISABLED := (Except.ok.inj hmode).symm
    subst hm0
    split at h
    · cases h
    next hwm =>
      split at h
      · cases h
      next bs hbs =>
        split at h
        case isTrue hloc => exact absurd hloc (by decide)
        case isFalse hloc =>
          split at h
          case isTrue henb => simp [Logger.is_enabled] at henb
          case isFalse henb =>
            cases h
            exact ⟨rfl, rfl, rfl, rfl, rfl, rfl, rfl, rfl⟩

/-- C8: a disabled-mode logger is constructed without creating any files,
directories or sinks (all file-backed state is empty), and every operation
— `log` (any group, any `check_keys`), `log_binned` (even without a bin
size), `log_file`, `log_summary` and `finish` (repeatable, since the state
is returned unchanged) — is a no-op returning the state unchanged and
raising nothing. -/
theorem c8_disabled_noop {setList : List String → List String}
    {metrics : Dict (String × List String)} {bin : BinArg} {wm : String} {r : Bool}
    {lg : Logger}
    (hinit : Logger.init setList "disabled" metrics bin wm r = Except.ok lg) :
    lg.metrics_files = none ∧ lg.status_file = none ∧ lg.summary_file = none ∧
    lg.summary = none ∧ lg.metric_roll_avg = none ∧ lg.metric_n = none ∧
    lg.files_dir = [] ∧
    (∀ (d : Record) (g : String) (ck : Bool), Logger.log lg d g ck = Except.ok lg) ∧
    (∀ (d : Record) (g : String), Logger.log_binned lg d g = Except.ok lg) ∧
    (∀ p : String, Logger.log_file lg p = Except.ok lg) ∧
    Logger.log_summary lg = Except.ok lg ∧
    Logger.finish lg = Except.ok lg := by
  obtain ⟨hm, h1, h2, h3, h4, h5, h6, h7⟩ := Logger.init_disabled_state hinit
  have hen : lg.is_enabled = false := by simp [Logger.is_enabled, hm]
  refine ⟨h1, h2, h3, h4, h5, h6, h7, ?_, ?_, ?_, ?_, ?_⟩
  · intro d g ck
    rw [Logger.log, if_pos (by simp [hen])]
  · intro d g
    rw [Logger.log_binned, if_pos (by simp [hen])]
  · intro p
    rw [Logger.log_file, if_neg (by simp [hen])]
  · rw [Logger.log_summary, if_neg (by simp [hen])]
  · rw [Logger.finish, if_neg (by simp [hen])]

/-- Witness for C8 at a concrete disabled logger (bin size configured, so
even the binned path is exercised). -/
theorem c8_disabled_noop_witness :
    Logger.log lgC8 [("a", 1)] "nope" true = Except.ok lgC8 ∧
    Logger.log_binned lgC8 [("m1", 2)] "train" = Except.ok lgC8 ∧
    Logger.log_file lgC8 "a/b.txt" = Except.ok lgC8 ∧
    Logger.finish lgC8 = Except.ok lgC8 := by
  have h := @c8_disabled_noop fwdSetList [("train", ("step", ["m1"]))]
    (BinArg.int 3) "online" true lgC8 (by decide)
  exact ⟨h.2.2.2.2.2.2.2.1 _ _ _, h.2.2.2.2.2.2.2.2.1 _ _,
    h.2.2.2.2.2.2.2.2.2.1 _, h.2.2.2.2.2.2.2.2.2.2.2⟩

theorem Logger.init_local_ready {setList : List String → List String}
    {metrics : Dict (String × List String)} {bin : BinArg} {wm : String} {r : Bool}
    {lg : Logger} {g st : String} {ms : List String}
    (hnd : (metrics.map Prod.fst).Nodup)
    (hp : (g, (st, ms)) ∈ metrics)
    (hinit : Logger.init setList "local" metrics bin wm r = Except.ok lg) :
    lg.log_mode = LogMode.LOCAL ∧ lg.files_closed = false ∧
    g ∈ Dict.keys lg.metrics ∧
    stepOf lg g = st ∧ metricsOf lg g = pySetMinus setList ms st ∧
    (∃ s gs, lg.summary = some s ∧ Dict.get? s g = some gs) ∧
    lg.metrics_files
      = some ((metrics.map Prod.fst).map (fun g2 => (g2, [headerOf lg g2]))) ∧
    Dict.get? ((metrics.map Prod.fst).map (fun g2 => (g2, [headerOf lg g2]))) g
      = some [headerOf lg g] ∧
    fileChunks lg g = [headerOf lg g] := by
  have hinv := Logger.init_inv hinit
  have hloc := Logger.init_local_ok hnd hinit
  have hml : lg.log_mode = LogMode.LOCAL := hloc.1
  have hgmem : g ∈ metrics.map Prod.fst := List.mem_map_of_mem Prod.fst hp
  have hkeys : Dict.keys lg.metrics = metrics.map Prod.fst := by
    rw [hinv.2.2.2.1, Dict.keys, List.map_map]
    exact List.map_congr_left (fun p _ => rfl)
  have hstep : stepOf lg g = st := by
    have hq : Dict.get? (metrics.map (fun q => (q.1, q.2.1))) g = some st :=
      Dict.get?_map_entry (fun q => q.2.1) metrics (g, (st, ms)) hnd hp
    rw [stepOf, hinv.2.2.1, hq]
    rfl
  have hmet : metricsOf lg g = pySetMinus setList ms st := by
    have hq : Dict.get? (metrics.map
        (fun q => (q.1, pySetMinus setList q.2.2 q.2.1))) g
        = some (pySetMinus setList ms st) :=
      Dict.get?_map_entry (fun q => pySetMinus setList q.2.2 q.2.1) metrics
        (g, (st, ms)) hnd hp
    rw [metricsOf, hinv.2.2.2.1, hq]
    rfl
  have hsum : lg.summary = some (metrics.map (fun p =>
      (p.1, (pySetMinus setList p.2.2 p.2.1).map (fun m => (m, (none : Option Val)))
            ++ [(p.2.1, none)]))) := by
    have h9 := hinv.2.2.2.2.2.2.2.2
    rw [hml] at h9
    rw [if_pos rfl] at h9
    exact h9
  have hgs : Dict.get? (metrics.map (fun p =>
      (p.1, (pySetMinus setList p.2.2 p.2.1).map (fun m => (m, (none : Option Val)))
            ++ [(p.2.1, none)]))) g
      = some ((pySetMinus setList ms st).map (fun m => (m, (none : Option Val)))
            ++ [(st, none)]) :=
    Dict.get?_map_entry (fun p =>
      (pySetMinus setList p.2.2 p.2.1).map (fun m => (m, (none : Option Val)))
        ++ [(p.2.1, none)]) metrics (g, (st, ms)) hnd hp
  have hgetf : Dict.get? ((metrics.map Prod.fst).map
      (fun g2 => (g2, [headerOf lg g2]))) g = some [headerOf lg g] :=
    Dict.get?_map_self (fun g2 => [headerOf lg g2]) (metrics.map Prod.fst) g hgmem
  have hchunks : fileChunks lg g = [headerOf lg g] := by
    rw [fileChunks, hloc.2.1]
    dsimp only [Option.bind]
    rw [hgetf]
    rfl
  exact ⟨hml, hinv.2.2.2.2.2.1, by rw [hkeys]; exact hgmem, hstep, hmet,
    ⟨_, _, hsum, hgs⟩, hloc.2.1, hgetf, hchunks⟩

theorem rowStrOf_filter (st : String) (cols : List String) (d : Record) :
    rowStrOf st cols (d.filter (fun p => decide (p.1 = st ∨ p.1 ∈ cols)))
      = rowStrOf st cols d := by
  rw [rowStrOf, rowStrOf]
  have hstep : Dict.get? (d.filter (fun p => decide (p.1 = st ∨ p.1 ∈ cols))) st
      = Dict.get? d st :=
    Dict.get?_filter _ d st (fun p _ e => by simp [e])
  rw [hstep]
  exact congrArg (fun z => pyStr ((Dict.get? d st).getD 0) ++ "," ++ pyJoin "," z)
    (List.map_congr_left (fun col hcol => by
      rw [Dict.get?_filter _ d col (fun p _ e => by simp [e, hcol])]))

/-- C10: in local mode, a record that omits the group's step-metric key
makes `log(record, g)` (default `check_keys`) raise the `ValueError` of
`_to_row` and write no CSV row, but only after `copy_to_dict` has already
merged the record into the group's summary (logger.py line 520 runs before
line 522): the state carried by the error has the updated summary — every
key of the record now maps to its value — while the metric files are
untouched. -/
theorem c10_missing_step_metric {setList : List String → List String}
    {metrics : Dict (String × List String)} {bin : BinArg} {wm : String} {r : Bool}
    {lg : Logger} {d : Record} {g st : String} {ms : List String}
    (hnd : (metrics.map Prod.fst).Nodup)
    (hinit : Logger.init setList "local" metrics bin wm r = Except.ok lg)
    (hp : (g, (st, ms)) ∈ metrics)
    (hstep : stepOf lg g ∉ Dict.keys d)
    (hd : (Dict.keys d).Nodup) :
    ∃ s gs, lg.summary = some s ∧ Dict.get? s g = some gs ∧
      Logger.log lg d g false =
        Except.error (Err.validationError
            ("step_metric=" ++ stepOf lg g ++ " not specified in d"),
          { lg with summary := some (Dict.set s g (copyToDict d gs)) }) ∧
      (∀ (k : String) (v : Val), (k, v) ∈ d →
        Dict.get? (copyToDict d gs) k = some (some v)) ∧
      ({ lg with summary := some (Dict.set s g (copyToDict d gs)) }).metrics_files
        = lg.metrics_files := by
  obtain ⟨hml, hcl, hg, hst, hmet, ⟨s, gs, hsum, hgs⟩, hfiles, hgetf, hchunks⟩ :=
    Logger.init_local_ready hnd hp hinit
  exact ⟨s, gs, hsum, hgs,
    Logger.log_step_err hml hsum hgs hg hstep,
    fun k v hkv => copyToDict_get? d gs k v hd hkv,
    rfl⟩

/-- Witness for C10: record `{"m1": 7}` omits the step metric `step`; the
call errors, the carried state has `m1 = 7` in the summary, and no row is
written. -/
theorem c10_missing_step_metric_witness :
    ∃ s gs, lgC10.summary = some s ∧ Dict.get? s "train" = some gs ∧
      Logger.log lgC10 [("m1", 7)] "train" false =
        Except.error (Err.validationError
            ("step_metric=" ++ stepOf lgC10 "train" ++ " not specified in d"),
          { lgC10 with summary := some (Dict.set s "train" (copyToDict [("m1", 7)] gs)) }) ∧
      (∀ (k : String) (v : Val), (k, v) ∈ ([("m1", 7)] : Record) →
        Dict.get? (copyToDict [("m1", 7)] gs) k = some (some v)) ∧
      ({ lgC10 with
          summary := some (Dict.set s "train" (copyToDict [("m1", 7)] gs)) }).metrics_files
        = lgC10.metrics_files :=
  @c10_missing_step_metric fwdSetList [("train", ("step", ["m1", "m2"]))]
    BinArg.noneArg "online" true lgC10 [("m1", 7)] "train" "step" ["m1", "m2"]
    (by decide) rfl (by decide) (by decide) (by decide)

/-- C4: with `check_keys=True`, `log` raises the `ValueError` of logger.py
lines 407-414 — the spec's `UnregisteredKeyError` — listing exactly the
record keys that are neither the group's step metric nor one of its
registered metrics, and leaves the state unchanged; the same call with
`check_keys=False` succeeds, and the written row is the same as for the
record with its unregistered keys removed — they are silently ignored. -/
theorem c4_unregistered_keys {setList : List String → List String}
    {metrics : Dict (String × List String)} {bin : BinArg} {wm : String} {r : Bool}
    {lg : Logger} {d : Record} {g st k : String} {ms : List String}
    (hnd : (metrics.map Prod.fst).Nodup)
    (hinit : Logger.init setList "local" metrics bin wm r = Except.ok lg)
    (hp : (g, (st, ms)) ∈ metrics)
    (hk : k ∈ Dict.keys d)
    (hkstep : k ≠ stepOf lg g) (hkreg : k ∉ metricsOf lg g)
    (hstep : stepOf lg g ∈ Dict.keys d) :
    (∃ ks, Logger.log lg d g true = Except.error (Err.unregisteredKeyError ks, lg) ∧
      k ∈ ks ∧
      ∀ x, x ∈ ks ↔ x ∈ Dict.keys d ∧ x ≠ stepOf lg g ∧ x ∉ metricsOf lg g) ∧
    (∃ lg1 row, Logger.log lg d g false = Except.ok lg1 ∧
      Logger.to_row lg d g false = Except.ok row ∧
      Logger.to_row lg
        (d.filter (fun p => decide (p.1 = stepOf lg g ∨ p.1 ∈ metricsOf lg g))) g false
        = Except.ok row ∧
      fileChunks lg1 g = fileChunks lg g ++ ["\n" ++ row]) := by
  obtain ⟨hml, hcl, hg, hst, hmet, ⟨s, gs, hsum, hgs⟩, hfiles, hgetf, hchunks⟩ :=
    Logger.init_local_ready hnd hp hinit
  have hkoff : k ∈ (Dict.keys d).filter
      (fun x => decide (x ≠ stepOf lg g ∧ x ∉ metricsOf lg g)) :=
    List.mem_filter.mpr ⟨hk, by simp only [decide_eq_true_eq]; exact ⟨hkstep, hkreg⟩⟩
  constructor
  · refine ⟨(Dict.keys d).filter
      (fun x => decide (x ≠ stepOf lg g ∧ x ∉ metricsOf lg g)), ?_, hkoff, ?_⟩
    · rw [Logger.log]
      rw [if_neg (by simp [Logger.is_enabled, hml])]
      rw [if_neg (fun hc => hc hg)]
      dsimp only []
      rw [if_pos ?_]
      case _ =>
        cases hoff : (Dict.keys d).filter
            (fun x => decide (x ≠ stepOf lg g ∧ x ∉ metricsOf lg g)) with
        | nil => rw [hoff] at hkoff; cases hkoff
        | cons a t => simp [hoff]
    · intro x
      constructor
      · intro hx
        rcases List.mem_filter.mp hx with ⟨hx1, hx2⟩
        have hx3 := of_decide_eq_true hx2
        exact ⟨hx1, hx3.1, hx3.2⟩
      · rintro ⟨hx1, hx2, hx3⟩
        exact List.mem_filter.mpr
          ⟨hx1, by simp only [decide_eq_true_eq]; exact ⟨hx2, hx3⟩⟩
  · have hlog := Logger.log_step_ok hml hsum hgs hfiles hgetf hcl hg hstep
    have hstep2 : stepOf lg g ∈ Dict.keys
        (d.filter (fun p => decide (p.1 = stepOf lg g ∨ p.1 ∈ metricsOf lg g))) := by
      rcases List.mem_map.mp hstep with ⟨p, hpd, hp1⟩
      have hPp : (fun p => decide (p.1 = stepOf lg g ∨ p.1 ∈ metricsOf lg g)) p = true := by
        simp only [decide_eq_true_eq]
        exact Or.inl hp1
      exact List.mem_map.mpr ⟨p, List.mem_filter.mpr ⟨hpd, hPp⟩, hp1⟩
    refine ⟨_, rowStrOf (stepOf lg g) (metricsOf lg g) d, hlog,
      Logger.to_row_ok hstep, ?_, ?_⟩
    · rw [Logger.to_row_ok hstep2]
      exact congrArg Except.ok (rowStrOf_filter (stepOf lg g) (metricsOf lg g) d)
    · rw [fileChunks]
      dsimp only [Option.bind]
      rw [Dict.get?_set_self]
      rw [hchunks]
      rfl

/-- Witness for C4: record `{"step": 1, "zz": 3}` against group `train`
(metrics `m1`, `m2`): with checking the call fails listing `zz`; without it
the row is written. -/
theorem c4_unregistered_keys_witness :
    (∃ ks, Logger.log lgC4 [("step", 1), ("zz", 3)] "train" true
        = Except.error (Err.unregisteredKeyError ks, lgC4) ∧ "zz" ∈ ks) ∧
    (∃ lg1 row, Logger.log lgC4 [("step", 1), ("zz", 3)] "train" false = Except.ok lg1 ∧
      fileChunks lg1 "train" = fileChunks lgC4 "train" ++ ["\n" ++ row]) := by
  have h := @c4_unregistered_keys fwdSetList [("train", ("step", ["m1", "m2"]))]
    BinArg.noneArg "online" true lgC4 [("step", 1), ("zz", 3)] "train" "step" "zz"
    ["m1", "m2"] (by decide) rfl (by decide) (by decide) (by decide) (by decide) (by decide)
  obtain ⟨⟨ks, hks, hkmem, _⟩, ⟨lg1, row, h1, _, _, h4⟩⟩ := h
  exact ⟨⟨ks, hks, hkmem⟩, ⟨lg1, row, h1, h4⟩⟩

/-- C3: starting from a freshly constructed local logger, after `N`
successful `log()` calls for group `g` the group's CSV consists of the
header chunk followed, per call in call order, by a chunk that is a line
break and the row — the step value then each registered metric's value in
the group's column order, missing metrics as empty fields (`rowStrOf`) —
and the file therefore has exactly `N + 1` lines with no trailing newline
(the line list is exactly the header line followed by the `N` rows, with no
final empty line). -/
theorem c3_csv_file_lines {setList : List String → List String}
    {metrics : Dict (String × List String)} {bin : BinArg} {wm : String} {r : Bool}
    {lg lg' : Logger} {g st : String} {ms : List String} {records : List Record}
    (hnd : (metrics.map Prod.fst).Nodup)
    (hinit : Logger.init setList "local" metrics bin wm r = Except.ok lg)
    (hp : (g, (st, ms)) ∈ metrics)
    (hrun : logAll g lg records = Except.ok lg')
    (hnlst : noNL st) (hnlms : ∀ m ∈ pySetMinus setList ms st, noNL m) :
    fileChunks lg' g
      = headerOf lg g
        :: records.map (fun d => "\n" ++ rowStrOf st (pySetMinus setList ms st) d) ∧
    linesOf (contentOf (fileChunks lg' g))
      = (headerOf lg g).data
        :: records.map (fun d => (rowStrOf st (pySetMinus setList ms st) d).data) := by
  obtain ⟨hml, hcl, hg, hst, hmet, ⟨s, gs, hsum, hgs⟩, hfiles, hgetf, hchunks⟩ :=
    Logger.init_local_ready hnd hp hinit
  have hchain := logAll_chunks records lg lg' s gs _ [headerOf lg g]
    hml hcl hsum hgs hfiles hgetf hg hst hmet hrun
  have hnlh : noNL (headerOf lg g) := by
    rw [headerOf, hst, hmet]
    exact noNL_append _ _ (noNL_append _ _ hnlst (by decide))
      (noNL_pyJoin "," _ (by decide) hnlms)
  have hform : [headerOf lg g]
      ++ records.map (fun d => "\n" ++ rowStrOf st (pySetMinus setList ms st) d)
      = headerOf lg g :: (records.map (rowStrOf st (pySetMinus setList ms st))).map
          (fun r2 => "\n" ++ r2) := by
    simp [List.map_map]
  constructor
  · rw [hchain]
    simp
  · rw [hchain, hform]
    rw [linesOf_header_rows (headerOf lg g)
      (records.map (rowStrOf st (pySetMinus setList ms st))) hnlh
      (fun r2 hr2 => by
        rcases List.mem_map.mp hr2 with ⟨d2, _, e⟩
        rw [← e]
        exact noNL_rowStrOf _ _ _)]
    rw [List.map_map]
    rfl

/-- Witness for C3: two records against group `train` (metrics `m1`, `m2`),
the second omitting `m1`: the file is the header plus two rows, three lines,
no trailing newline. -/
theorem c3_csv_file_lines_witness :
    logAll "train" lgC3 recsC3 = Except.ok lgC3done ∧
    fileChunks lgC3done "train" = ["step,m1,m2", "\n1,10,", "\n2,,3"] ∧
    linesOf (contentOf (fileChunks lgC3done "train"))
      = ["step,m1,m2".data, "1,10,".data, "2,,3".data] := by
  have h := @c3_csv_file_lines fwdSetList [("train", ("step", ["m1", "m2"]))]
    BinArg.noneArg "online" true lgC3 lgC3done "train" "step" ["m1", "m2"] recsC3
    (by decide) rfl (by decide) rfl (by decide) (by decide)
  exact ⟨rfl, h.1.trans (by decide), h.2.trans (by decide)⟩
